import Mathlib

set_option maxRecDepth 100000

/-!
# Verification of the bsky-compliance-tracker persistence and matching core

A shallow embedding of `src/compliance_tracker/database.py` (with its helpers
from `utils.py`, `constants.py`, `schema.py` and `engagements.py`).

Modelling conventions:

* SQLite tables are Lean lists of row structures; the implicit `rowid` /
  `AUTOINCREMENT id` columns are explicit `Nat` fields fed from counters kept
  in the `DB` structure.
* Machine floats are modelled as exact rationals (`ℚ`); every timestamp is
  carried as an exact count of microseconds since the Unix epoch (`Int`), so
  `datetime.timestamp()` and `timedelta.total_seconds()` are exact.  The float
  `-inf` sentinel used by `_load_feed_cache` is the dedicated constructor
  `TS.ninf`.
* Python's `datetime.fromisoformat` is embedded for the grammar
  `YYYY-MM-DD[{T,space}HH:MM[:SS[.1-6 fraction digits]]][±HH:MM[:SS]]`
  (after the source's `raw.replace("Z", "+00:00")` preprocessing); strings
  outside this grammar parse to `none`, as they raise `ValueError` in Python.
* JSON scalar payload values are the inductive `JVal`; nested arrays/objects
  appearing as *values* inside a post payload are abstracted by
  `JVal.jother truthy` (the source only ever asks such values for their
  truthiness or coerces them, which yields `None`).
* SQLite `TEXT` binary collation is byte-wise comparison of UTF-8, which on
  ASCII data agrees with code-point lexicographic order; `strLt`/`strLe`
  implement that order on Lean strings.
-/

/-- Numeric feed timestamps as used in `FeedCache.timestamps`: either the float
`-inf` sentinel for an unparseable snapshot timestamp or an exact epoch value
in microseconds. -/
inductive TS where
  | ninf : TS
  | fin (micro : Int) : TS
deriving DecidableEq, Repr

/-- Python `<` on the cache's timestamp floats (no NaN can occur). -/
def TS.ltb : TS → TS → Bool
  | _, .ninf => false
  | .ninf, .fin _ => true
  | .fin a, .fin b => a < b

/-- Python `<=` on the cache's timestamp floats. -/
def TS.leb : TS → TS → Bool
  | .ninf, _ => true
  | .fin _, .ninf => false
  | .fin a, .fin b => a ≤ b

/-- Byte-wise (code-point) strict comparison of strings, the order SQLite's
default BINARY collation uses for ASCII `TEXT` values. -/
def strLtAux : List Char → List Char → Bool
  | [], [] => false
  | [], _ :: _ => true
  | _ :: _, [] => false
  | a :: as, b :: bs =>
    if a.toNat < b.toNat then true
    else if b.toNat < a.toNat then false
    else strLtAux as bs

def strLt (a b : String) : Bool := strLtAux a.data b.data

def strLe (a b : String) : Bool := !(strLt b a)

/-- `NULL`-aware SQLite ascending comparison for `ORDER BY` on a nullable
`TEXT` column: `NULL` sorts before every string. -/
def optStrLt : Option String → Option String → Bool
  | _, none => false
  | none, some _ => true
  | some a, some b => strLt a b

/-! ## Stable insertion sort (models SQL `ORDER BY ... ASC`) -/

/-- Insert `x` in front of the first element strictly greater than it, so that
elements comparing equal keep their original relative order. -/
def insertSorted (lt : α → α → Bool) (x : α) : List α → List α
  | [] => [x]
  | y :: ys => if lt y x then y :: insertSorted lt x ys else x :: y :: ys

/-- Stable sort by the strict comparison `lt` (ties keep input order). -/
def sortByLt (lt : α → α → Bool) : List α → List α
  | [] => []
  | x :: xs => insertSorted lt x (sortByLt lt xs)

theorem mem_insertSorted (lt : α → α → Bool) (x : α) (l : List α) (a : α) :
    a ∈ insertSorted lt x l ↔ a = x ∨ a ∈ l := by
  induction l with
  | nil => simp [insertSorted]
  | cons y ys ih =>
    simp only [insertSorted]
    by_cases h : lt y x
    · simp only [h, if_true, List.mem_cons, ih]
      tauto
    · simp only [h, Bool.false_eq_true, if_false, List.mem_cons]

theorem mem_sortByLt (lt : α → α → Bool) (l : List α) (a : α) :
    a ∈ sortByLt lt l ↔ a ∈ l := by
  induction l with
  | nil => simp [sortByLt]
  | cons x xs ih => simp [sortByLt, mem_insertSorted, ih]

theorem strLtAux_asymm : ∀ a b : List Char, strLtAux a b = true → strLtAux b a = false
  | [], [] => by simp [strLtAux]
  | [], _ :: _ => by simp [strLtAux]
  | _ :: _, [] => by simp [strLtAux]
  | a :: as, b :: bs => by
    simp only [strLtAux]
    by_cases h1 : a.toNat < b.toNat
    · intro _
      have h2 : ¬ b.toNat < a.toNat := by omega
      simp [h1, h2]
    · by_cases h2 : b.toNat < a.toNat
      · simp [h1, h2]
      · simp only [h1, h2, if_false]
        exact strLtAux_asymm as bs

/-- Totality-style transitivity: if `c < a` then for any `b`, `c < b` or `b < a`. -/
theorem strLtAux_trans_total : ∀ c a b : List Char,
    strLtAux c a = true → strLtAux c b = true ∨ strLtAux b a = true
  | [], [], _ => by simp [strLtAux]
  | [], _ :: _, [] => by simp [strLtAux]
  | [], _ :: _, _ :: _ => by simp [strLtAux]
  | _ :: _, [], _ => by simp [strLtAux]
  | c :: cs, a :: as, [] => by simp [strLtAux]
  | c :: cs, a :: as, b :: bs => by
    simp only [strLtAux]
    by_cases hca : c.toNat < a.toNat
    · intro _
      by_cases hcb : c.toNat < b.toNat
      · left; simp [hcb]
      · right
        have hba : b.toNat < a.toNat := by omega
        simp [hba, hcb]
    · by_cases hac : a.toNat < c.toNat
      · simp [hca, hac]
      · simp only [hca, hac, if_false]
        intro htail
        by_cases hcb : c.toNat < b.toNat
        · left; simp [hcb]
        · by_cases hbc : b.toNat < c.toNat
          · right
            have hba : b.toNat < a.toNat := by omega
            simp [hba]
          · rcases strLtAux_trans_total cs as bs htail with h | h
            · left; simp [hcb, hbc, h]
            · right
              have h1 : ¬ b.toNat < a.toNat := by omega
              have h2 : ¬ a.toNat < b.toNat := by omega
              simp [h1, h2, h]

theorem optStrLt_asymm (a b : Option String) (h : optStrLt a b = true) :
    optStrLt b a = false := by
  cases a <;> cases b <;> simp_all [optStrLt, strLt]
  exact strLtAux_asymm _ _ h

theorem optStrLt_trans_total (c a b : Option String) (h : optStrLt c a = true) :
    optStrLt c b = true ∨ optStrLt b a = true := by
  cases a <;> cases b <;> cases c <;> simp_all [optStrLt, strLt]
  exact strLtAux_trans_total _ _ _ h

theorem pairwise_insertSorted {α : Type _} {le : α → α → Prop} {lt : α → α → Bool}
    (hyes : ∀ a b, lt a b = true → le a b)
    (hno : ∀ a b, lt a b = false → le b a)
    (htrans : ∀ a b c, le a b → le b c → le a c)
    (x : α) : ∀ l : List α, l.Pairwise le → (insertSorted lt x l).Pairwise le
  | [], _ => by simp [insertSorted]
  | y :: ys, hl => by
    rcases List.pairwise_cons.mp hl with ⟨hy, hys⟩
    simp only [insertSorted]
    by_cases h : lt y x
    · simp only [h, if_true]
      refine List.pairwise_cons.mpr ⟨?_, pairwise_insertSorted hyes hno htrans x ys hys⟩
      intro z hz
      rcases (mem_insertSorted lt x ys z).mp hz with rfl | hz'
      · exact hyes y z h
      · exact hy z hz'
    · simp only [h, Bool.false_eq_true, if_false]
      have hxy : le x y := hno y x (by simpa using h)
      refine List.pairwise_cons.mpr ⟨?_, hl⟩
      intro z hz
      rcases List.mem_cons.mp hz with hz' | hz'
      · exact hz' ▸ hxy
      · exact htrans x y z hxy (hy z hz')

theorem pairwise_sortByLt {α : Type _} {le : α → α → Prop} {lt : α → α → Bool}
    (hyes : ∀ a b, lt a b = true → le a b)
    (hno : ∀ a b, lt a b = false → le b a)
    (htrans : ∀ a b c, le a b → le b c → le a c) :
    ∀ l : List α, (sortByLt lt l).Pairwise le
  | [] => by simp [sortByLt]
  | x :: xs => pairwise_insertSorted hyes hno htrans x _ (pairwise_sortByLt hyes hno htrans xs)

/-! ## Datetime normalization (`utils.parse_datetime`, `utils.ensure_utc`)

The source always uses `parse_datetime` together with `ensure_utc` and then
either compares the resulting aware datetimes or takes `.timestamp()`; both
are determined by the UTC epoch instant, so the embedding folds the three into
one function producing epoch *microseconds*. -/

def isLeapYear (y : Int) : Bool := y % 4 = 0 && (y % 100 ≠ 0 || y % 400 = 0)

def daysInMonth (y : Int) (m : Nat) : Nat :=
  if m = 2 then (if isLeapYear y then 29 else 28)
  else if m = 4 ∨ m = 6 ∨ m = 9 ∨ m = 11 then 30
  else 31

/-- Days since 1970-01-01 of a civil date (proleptic Gregorian); standard
floor-division formula. -/
def daysFromCivil (y : Int) (m d : Int) : Int :=
  let y' := if m ≤ 2 then y - 1 else y
  let m' := if m ≤ 2 then m + 12 else m
  365 * y' + y' / 4 - y' / 100 + y' / 400 + (153 * (m' - 3) + 2) / 5 + d - 1 - 719468

/-- Civil date `(year, month, day)` of a day count since 1970-01-01. -/
def civilFromDays (z0 : Int) : Int × Int × Int :=
  let z := z0 + 719468
  let era := z / 146097
  let doe := z - era * 146097
  let yoe := (doe - doe / 1460 + doe / 36524 - doe / 146096) / 365
  let y := yoe + era * 400
  let doy := doe - (365 * yoe + yoe / 4 - yoe / 100)
  let mp := (5 * doy + 2) / 153
  let d := doy - (153 * mp + 2) / 5 + 1
  let m := if mp < 10 then mp + 3 else mp - 9
  (if m ≤ 2 then y + 1 else y, m, d)

def digitVal (c : Char) : Option Nat :=
  if '0' ≤ c ∧ c ≤ '9' then some (c.toNat - 48) else none

/-- Read exactly `n` ASCII digits, returning their value. -/
def readNDigitsAux : Nat → Nat → List Char → Option (Nat × List Char)
  | 0, acc, cs => some (acc, cs)
  | n + 1, acc, c :: cs =>
    match digitVal c with
    | some d => readNDigitsAux n (acc * 10 + d) cs
    | none => none
  | _ + 1, _, [] => none

def readNDigits (n : Nat) (cs : List Char) : Option (Nat × List Char) :=
  readNDigitsAux n 0 cs

/-- Read one or more fractional-second digits; the first six contribute to the
microsecond value (CPython truncates any further digits). -/
def readFracAux : List Char → Nat → Nat → Nat × Nat × List Char
  | c :: cs, acc, seen =>
    match digitVal c with
    | some d =>
      if seen < 6 then readFracAux cs (acc * 10 + d) (seen + 1)
      else readFracAux cs acc seen
    | none => (acc, seen, c :: cs)
  | [], acc, seen => (acc, seen, [])

def expectChar (c : Char) : List Char → Option (List Char)
  | x :: xs => if x = c then some xs else none
  | [] => none

/-- Parse the optional UTC-offset tail `±HH:MM[:SS]`; returns the offset in
seconds.  Must consume the rest of the string. -/
def parseOffset (cs : List Char) : Option Int :=
  match cs with
  | [] => none
  | sgn :: rest =>
    if sgn = '+' ∨ sgn = '-' then
      match readNDigits 2 rest with
      | none => none
      | some (oh, rest1) =>
        match expectChar ':' rest1 with
        | none => none
        | some rest2 =>
          match readNDigits 2 rest2 with
          | none => none
          | some (om, rest3) =>
            let finish : Nat → List Char → Option Int := fun os tail =>
              if tail = [] ∧ oh ≤ 23 ∧ om ≤ 59 ∧ os ≤ 59 then
                let mag : Int := (oh : Int) * 3600 + om * 60 + os
                some (if sgn = '-' then -mag else mag)
              else none
            match expectChar ':' rest3 with
            | some rest4 =>
              match readNDigits 2 rest4 with
              | some (os, rest5) => finish os rest5
              | none => none
            | none => finish 0 rest3
    else none

/-- Parse the time-of-day with optional fraction, returning microseconds since
midnight and the remaining characters. -/
def parseTime (cs : List Char) : Option (Int × List Char) :=
  match readNDigits 2 cs with
  | none => none
  | some (hh, rest1) =>
    let done : Nat → Nat → Nat → Nat → List Char → Option (Int × List Char) :=
      fun hh mm ss micro tail =>
        if hh ≤ 23 ∧ mm ≤ 59 ∧ ss ≤ 59 then
          some (((hh : Int) * 3600 + mm * 60 + ss) * 1000000 + micro, tail)
        else none
    match expectChar ':' rest1 with
    | none => done hh 0 0 0 rest1
    | some rest2 =>
      match readNDigits 2 rest2 with
      | none => none
      | some (mm, rest3) =>
        match expectChar ':' rest3 with
        | none => done hh mm 0 0 rest3
        | some rest4 =>
          match readNDigits 2 rest4 with
          | none => none
          | some (ss, rest5) =>
            match rest5 with
            | c :: rest6 =>
              if c = '.' ∨ c = ',' then
                let (fracRaw, seen, rest7) := readFracAux rest6 0 0
                if seen = 0 then none
                else done hh mm ss (fracRaw * 10 ^ (6 - seen)) rest7
              else done hh mm ss 0 rest5
            | [] => done hh mm ss 0 []

/-- `datetime.fromisoformat` on the grammar
`YYYY-MM-DD[<sep>HH[:MM[:SS[.frac]]]][±HH:MM[:SS]]` (any single character is
accepted as the date/time separator, as in CPython 3.11+), composed with
`ensure_utc` and `.timestamp()`: the result is the UTC epoch instant in
microseconds (a datetime without offset is taken as already UTC). -/
def fromIsoUtcMicro (s : String) : Option Int :=
  match readNDigits 4 s.data with
  | none => none
  | some (y, r1) =>
    match expectChar '-' r1 with
    | none => none
    | some r2 =>
      match readNDigits 2 r2 with
      | none => none
      | some (mo, r3) =>
        match expectChar '-' r3 with
        | none => none
        | some r4 =>
          match readNDigits 2 r4 with
          | none => none
          | some (d, r5) =>
            if 1 ≤ mo ∧ mo ≤ 12 ∧ 1 ≤ d ∧ d ≤ daysInMonth (y : Int) mo ∧ 1 ≤ y then
              let dayMicro : Int := daysFromCivil (y : Int) (mo : Int) (d : Int) * 86400000000
              match r5 with
              | [] => some dayMicro
              | _sep :: r6 =>
                match parseTime r6 with
                | none => none
                | some (tod, r7) =>
                  if r7 = [] then some (dayMicro + tod)
                  else
                    match parseOffset r7 with
                    | none => none
                    | some off => some (dayMicro + tod - off * 1000000)
            else none

/-- `raw.replace("Z", "+00:00")` (every occurrence, as `str.replace` does). -/
def replaceZ (s : String) : String :=
  String.mk (s.data.foldr (fun c acc =>
    if c = 'Z' then '+' :: '0' :: '0' :: ':' :: '0' :: '0' :: acc else c :: acc) [])

/-- `utils.parse_datetime` fused with `ensure_utc`/`.timestamp()`: `None` and
the empty string are falsy and parse to `none`; otherwise the `Z` suffix is
rewritten to `+00:00` and the string is fed to `fromisoformat`. -/
def parse_datetime (raw : Option String) : Option Int :=
  match raw with
  | none => none
  | some s => if s = "" then none else fromIsoUtcMicro (replaceZ s)

def padNum (width : Nat) (n : Int) : String :=
  let s := toString n.toNat
  String.mk (List.replicate (width - s.length) '0') ++ s

/-- `datetime.isoformat()` of an aware UTC datetime given as epoch
microseconds: `YYYY-MM-DDTHH:MM:SS[.ffffff]+00:00` (microseconds are printed,
six digits, only when non-zero). -/
def isoformatUTC (micro : Int) : String :=
  let secs := micro / 1000000
  let us := micro % 1000000
  let days := secs / 86400
  let tod := (secs % 86400).toNat
  let c := civilFromDays days
  let frac := if us = 0 then "" else "." ++ padNum 6 us
  padNum 4 c.1 ++ "-" ++ padNum 2 c.2.1 ++ "-" ++ padNum 2 c.2.2 ++ "T" ++
    padNum 2 (tod / 3600) ++ ":" ++ padNum 2 (tod % 3600 / 60) ++ ":" ++
    padNum 2 (tod % 60) ++ frac ++ "+00:00"

/-- Sanity checks of the calendar arithmetic and the datetime embedding on
known instants. -/
theorem datetime_embedding_checks :
    daysFromCivil 1970 1 1 = 0 ∧
    daysFromCivil 2024 10 1 = 19997 ∧
    daysFromCivil 2000 3 1 = 11017 ∧
    daysFromCivil 1969 12 31 = -1 ∧
    civilFromDays 19997 = (2024, 10, 1) ∧
    civilFromDays (-1) = (1969, 12, 31) ∧
    parse_datetime (some "2024-10-01T12:00:00Z") = some 1727784000000000 ∧
    parse_datetime (some "2024-10-01T12:00:00+00:00") = some 1727784000000000 ∧
    parse_datetime (some "2024-10-01T14:00:00+03:00") =
      some (1727784000000000 - 3600000000) ∧
    parse_datetime (some "garbage") = none ∧
    parse_datetime (some "") = none ∧
    parse_datetime none = none ∧
    isoformatUTC 1727784000000000 = "2024-10-01T12:00:00+00:00" := by
  decide

/-! ## JSON payload values and `_coerce_payload_position` -/

/-- A JSON value as decoded by `json.loads` inside a post payload.  Python
floats are exact rationals here (binary rounding is not modelled); nested
arrays/objects occurring as payload *values* are abstracted to `jother` with
their truthiness, since the source only tests them for truthiness or passes
them to `_coerce_payload_position` (which returns `None` for them). -/
inductive JVal where
  | jnull : JVal
  | jbool (b : Bool) : JVal
  | jint (n : Int) : JVal
  | jfloat (q : ℚ) : JVal
  | jstr (s : String) : JVal
  | jother (truthy : Bool) : JVal
deriving DecidableEq, Repr

/-- Python truthiness of a JSON value. -/
def JVal.truthy : JVal → Bool
  | .jnull => false
  | .jbool b => b
  | .jint n => n ≠ 0
  | .jfloat q => q ≠ 0
  | .jstr s => s ≠ ""
  | .jother t => t

/-- A decoded payload object: association list with the dict's insertion
order; keys are unique. -/
abbrev Payload := List (String × JVal)

/-- `dict.get(key)`: `none` both for an absent key and nowhere else (a stored
JSON `null` value is `some .jnull`). -/
def jget (kvs : Payload) (k : String) : Option JVal :=
  match kvs with
  | [] => none
  | (k', v) :: rest => if k' = k then some v else jget rest k

/-- `payload.get(k)` collapsed to a `JVal`: Python's `None` result (absent
key) and a stored JSON `null` are the same object `None`. -/
def jgetOrNull (kvs : Payload) (k : String) : JVal :=
  match jget kvs k with
  | some v => v
  | none => .jnull

/-- Python `a or b` for two `dict.get` results. -/
def pyOr (a b : Option JVal) : Option JVal :=
  match a with
  | some v => if v.truthy then some v else b
  | none => b

/-- ASCII whitespace stripped by `str.strip()`. -/
def isPyWs (c : Char) : Bool :=
  c = ' ' ∨ c = '\t' ∨ c = '\n' ∨ c = '\r' ∨ c = '\x0b' ∨ c = '\x0c'

def pyStrip (s : String) : String :=
  String.mk (((s.data.dropWhile isPyWs).reverse.dropWhile isPyWs).reverse)

/-- Digit run with Python's underscore rule (an underscore only between two
digits); returns the value, the digit count and the rest.  Fails if the run is
empty or malformed. -/
def readPyDigitsAux : List Char → Nat → Nat → Bool → Option (Nat × Nat × List Char)
  | [], acc, cnt, true => some (acc, cnt, [])
  | [], _, _, false => none
  | c :: cs, acc, cnt, lastd =>
    match digitVal c with
    | some d => readPyDigitsAux cs (acc * 10 + d) (cnt + 1) true
    | none =>
      if c = '_' then
        if lastd then readPyDigitsAux cs acc cnt false else none
      else if lastd then some (acc, cnt, c :: cs) else none

def readPyDigits1 (cs : List Char) : Option (Nat × Nat × List Char) :=
  readPyDigitsAux cs 0 0 false

/-- Possibly-empty digit run (used for the integer part of a float literal,
which may be absent as in `".5"`). -/
def readPyDigits0 (cs : List Char) : Nat × Nat × List Char :=
  match cs with
  | c :: _ =>
    if (digitVal c).isSome then
      match readPyDigits1 cs with
      | some r => r
      | none => (0, 0, cs)
    else (0, 0, cs)
  | [] => (0, 0, [])

/-- Python `int(s)` on an already-stripped string: optional sign, then a
digit run (with underscores).  ASCII digits only. -/
def pyIntParse (s : String) : Option Int :=
  let core : List Char → Option Nat := fun cs =>
    match readPyDigits1 cs with
    | some (v, _, []) => some v
    | _ => none
  match s.data with
  | '+' :: rest => (core rest).map Int.ofNat
  | '-' :: rest => (core rest).map (fun n => -(n : Int))
  | cs => (core cs).map Int.ofNat

/-- Result of Python `float(s)`: a finite value, kept exactly as
`num / 10 ^ den10` (binary rounding is not modelled), or a non-finite one
(`inf`/`nan`, including decimal overflow beyond the IEEE range). -/
inductive PyFloat where
  | finite (num : Int) (den10 : Nat) : PyFloat
  | nonfinite : PyFloat
deriving DecidableEq, Repr

def asciiLower (c : Char) : Char :=
  if 'A' ≤ c ∧ c ≤ 'Z' then Char.ofNat (c.toNat + 32) else c

/-- Python `float(s)` on an already-stripped string.  Handles the decimal
grammar `[sign] digits ['.' digits] [('e'|'E') [sign] digits]` with Python's
underscore rule, plus the `inf`/`infinity`/`nan` spellings.  Overflow beyond
the IEEE range yields a non-finite value, underflow collapses to `0` as a
Python float would. -/
def pyFloatParse (s : String) : Option PyFloat :=
  let parseMag : List Char → Option PyFloat := fun cs =>
    let lower := cs.map asciiLower
    if lower = "inf".data ∨ lower = "infinity".data ∨ lower = "nan".data then
      some .nonfinite
    else
      let (ip, ipCnt, r1) := readPyDigits0 cs
      let contFrac : Nat → Nat → List Char → Option PyFloat := fun mant fracCnt r2 =>
        let contExp : Int → Nat → Option PyFloat := fun expVal totalDigits =>
          if totalDigits = 0 then none
          else if mant = 0 then some (.finite 0 0)
          else
            -- value = mant * 10 ^ effExp with mant ≥ 1
            let effExp : Int := expVal - (fracCnt : Int)
            if effExp ≥ 400 then some .nonfinite
            else if effExp + (totalDigits : Int) ≤ -400 then some (.finite 0 0)
            else
              let num : Nat := if effExp ≥ 0 then mant * 10 ^ effExp.toNat else mant
              let den10 : Nat := if effExp ≥ 0 then 0 else (-effExp).toNat
              if num ≥ 2 ^ 1024 * 10 ^ den10 then some .nonfinite
              else if num * 2 ^ 1075 < 10 ^ den10 then some (.finite 0 0)
              else some (.finite (num : Int) den10)
        match r2 with
        | 'e' :: r3 | 'E' :: r3 =>
          let signedExp : List Char → Option Int := fun cs' =>
            match cs' with
            | '+' :: r4 =>
              match readPyDigits1 r4 with
              | some (e, _, []) => some (e : Int)
              | _ => none
            | '-' :: r4 =>
              match readPyDigits1 r4 with
              | some (e, _, []) => some (-(e : Int))
              | _ => none
            | _ =>
              match readPyDigits1 cs' with
              | some (e, _, []) => some (e : Int)
              | _ => none
          match signedExp r3 with
          | some e => contExp e (ipCnt + fracCnt)
          | none => none
        | [] => contExp 0 (ipCnt + fracCnt)
        | _ => none
      match r1 with
      | '.' :: r2 =>
        let (fp, fpCnt, r3) := readPyDigits0 r2
        contFrac (ip * 10 ^ fpCnt + fp) fpCnt r3
      | _ => contFrac ip 0 r1
  match s.data with
  | '+' :: rest => parseMag rest
  | '-' :: rest =>
    match parseMag rest with
    | some (.finite n d) => some (.finite (-n) d)
    | r => r
  | cs => parseMag cs

/-- `float.is_integer()` together with `int(·)` on an exact decimal float:
`some v` iff the value is integral. -/
def PyFloat.toIntIfIntegral : PyFloat → Option Int
  | .nonfinite => none
  | .finite num den10 =>
    if (10 ^ den10 : Int) ∣ num then some (num / 10 ^ den10) else none

/-- `database._coerce_payload_position`. -/
def coercePayloadPosition : JVal → Option Int
  | .jnull => none
  | .jbool b => some (if b then 1 else 0)
  | .jint n => some n
  | .jfloat q => if q.den = 1 then some q.num else none
  | .jstr s =>
    let stripped := pyStrip s
    if stripped = "" then none
    else
      match pyIntParse stripped with
      | some n => some n
      | none =>
        match pyFloatParse stripped with
        | none => none
        | some f => f.toIntIfIntegral
  | .jother _ => none

/-- Sanity checks of the position coercion against the behaviour of
`_coerce_payload_position` on representative payload values. -/
theorem coercion_checks :
    coercePayloadPosition (.jint 7) = some 7 ∧
    coercePayloadPosition (.jstr "7") = some 7 ∧
    coercePayloadPosition (.jstr "15") = some 15 ∧
    coercePayloadPosition (.jstr " 7.0 ") = some 7 ∧
    coercePayloadPosition (.jfloat (mkRat 7 1)) = some 7 ∧
    coercePayloadPosition (.jfloat (mkRat 15 2)) = none ∧
    coercePayloadPosition (.jstr "7.5") = none ∧
    coercePayloadPosition (.jstr "abc") = none ∧
    coercePayloadPosition (.jstr "") = none ∧
    coercePayloadPosition (.jstr "1e2") = some 100 ∧
    coercePayloadPosition (.jstr "inf") = none ∧
    coercePayloadPosition .jnull = none ∧
    coercePayloadPosition (.jbool true) = some 1 := by
  decide

/-! ## Data model: the SQLite tables of `schema.py` -/

/-- One element of a retrieval's `posts` list: a JSON object (payload
association list) or any non-object value (which `store_feed_retrievals`
replaces by `{}`). -/
inductive PostItem where
  | obj (kvs : Payload) : PostItem
  | nonObj (v : JVal) : PostItem
deriving DecidableEq, Repr

/-- The `post_json` TEXT column, abstracted by its `json.loads` outcome:
`empty` for NULL/`""` (falsy), `invalid` for undecodable text, `val` for a
decoded document.  `store_feed_retrievals` always writes
`val (obj ...)`, the other constructors model legacy rows scanned by
`rebuild_post_indices_from_payload`. -/
inductive StoredJson where
  | empty : StoredJson
  | invalid : StoredJson
  | val (p : PostItem) : StoredJson
deriving DecidableEq, Repr

/-- A `feed_requests` row (`request_id` is the INTEGER PRIMARY KEY).  The
`timestamp` column is declared NOT NULL; it is modelled as `Option String`
only so that `parse_datetime`'s falsy check is faithful on arbitrary states.
`posts_json` stores `json.dumps(posts)` of the raw posts list. -/
structure FeedRequestRow where
  request_id : Int
  requester_did : String
  algo : Option String
  timestamp : Option String
  posts_json : List PostItem
deriving DecidableEq, Repr

/-- A `feed_request_posts` row; `id` is the AUTOINCREMENT surrogate key.
`post_uri` keeps the bound JSON value (`none` for SQL NULL); SQLite's TEXT
affinity coercion of non-string URIs is not modelled. -/
structure FeedRequestPostRow where
  id : Nat
  request_id : Int
  post_index : Option Int
  post_uri : Option JVal
  post_json : StoredJson
deriving DecidableEq, Repr

/-- A `posts` directory row (only the columns touched by
`_upsert_post_placeholder`; the hydration-only columns are untouched by the
embedded operations and elided). -/
structure PostRow where
  post_uri : JVal
  cid : Option JVal
  hydration_status : Option String
deriving DecidableEq, Repr

/-- An `engagements` row (implicit SQLite `rowid` made explicit).
`position_age_seconds` is REAL, modelled as an exact rational. -/
structure EngagementRow where
  rowid : Nat
  timestamp : String
  did_engagement : String
  post_uri : String
  post_author_handle : String
  engagement_type : String
  is_subscriber : Int
  engagement_text : Option String
  post_position : Option Int
  position_feed_request_id : Option Int
  position_age_seconds : Option ℚ
  position_status : Option String
deriving DecidableEq, Repr

/-- The whole SQLite database, with the next fresh `AUTOINCREMENT` /
`rowid` values. -/
structure DB where
  feed_requests : List FeedRequestRow
  feed_request_posts : List FeedRequestPostRow
  posts : List PostRow
  engagements : List EngagementRow
  next_post_row_id : Nat
  next_engagement_rowid : Nat
deriving DecidableEq, Repr

def emptyDB : DB := ⟨[], [], [], [], 1, 1⟩

/-! ## `store_engagements` -/

/-- `engagements.EngagementRecord`. -/
structure EngagementRecord where
  timestamp : String
  did_engagement : String
  post_uri : String
  post_author_handle : String
  engagement_type : String
  is_subscriber : Bool
  engagement_text : Option String := none
deriving DecidableEq, Repr

/-- `INSERT OR IGNORE` against the UNIQUE constraint
`(timestamp, did_engagement, post_uri, engagement_type)`. -/
def insertEngagementIgnore (db : DB) (r : EngagementRecord) : DB × Nat :=
  if db.engagements.any (fun row =>
      row.timestamp == r.timestamp && row.did_engagement == r.did_engagement &&
      row.post_uri == r.post_uri && row.engagement_type == r.engagement_type) then
    (db, 0)
  else
    ({ db with
        engagements := db.engagements ++
          [{ rowid := db.next_engagement_rowid
             timestamp := r.timestamp
             did_engagement := r.did_engagement
             post_uri := r.post_uri
             post_author_handle := r.post_author_handle
             engagement_type := r.engagement_type
             is_subscriber := if r.is_subscriber then 1 else 0
             engagement_text := r.engagement_text
             post_position := none
             position_feed_request_id := none
             position_age_seconds := none
             position_status := none }]
        next_engagement_rowid := db.next_engagement_rowid + 1 }, 1)

/-- `database.store_engagements`: bulk `INSERT OR IGNORE`, returning the
number of rows actually inserted (`total_changes` delta). -/
def store_engagements (db : DB) (rows : List EngagementRecord) : DB × Nat :=
  rows.foldl (fun acc r =>
    let (db', n) := insertEngagementIgnore acc.1 r
    (db', acc.2 + n)) (db, 0)

/-! ## `store_feed_retrievals` -/

/-- A raw feed-retrieval record (the `Mapping` consumed by
`store_feed_retrievals`); only the keys the source reads are modelled, and
`id` is assumed integral when present. -/
structure Retrieval where
  id : Option Int := none
  requester_did : Option String := none
  user_did : Option String := none
  algo : Option String := none
  timestamp : Option String := none
  posts : Option (List PostItem) := none
deriving DecidableEq, Repr

/-- Python `retrieval.get("requester_did") or retrieval.get("user_did") or ""`. -/
def requesterOf (r : Retrieval) : String :=
  match r.requester_did with
  | some s => if s ≠ "" then s else (match r.user_did with
    | some s' => if s' ≠ "" then s' else ""
    | none => "")
  | none =>
    match r.user_did with
    | some s' => if s' ≠ "" then s' else ""
    | none => ""

/-- `_upsert_post_placeholder`.  The `record`-sub-dict fallback for `cid` is
unreachable here because nested objects are abstracted (`jother` is never a
`Mapping`). -/
def upsertPostPlaceholder (tbl : List PostRow) (kvs : Payload) : List PostRow :=
  match pyOr (jget kvs "uri") (jget kvs "postUri") with
  | none => tbl
  | some uv =>
    if !uv.truthy then tbl
    else
      let cidStored : Option JVal :=
        match jget kvs "cid" with
        | none => none
        | some .jnull => none
        | some v => some v
      if tbl.any (fun row => row.post_uri == uv) then
        tbl.map (fun row =>
          if row.post_uri == uv then
            { row with
                cid := match row.cid with
                  | some c => some c
                  | none => cidStored
                hydration_status := match row.hydration_status with
                  | none => some "pending"
                  | some s => some s }
          else row)
      else tbl ++ [{ post_uri := uv, cid := cidStored, hydration_status := some "pending" }]

/-- `INSERT OR REPLACE INTO feed_request_posts`: rows violating the UNIQUE
`(request_id, post_uri)` constraint are deleted first (SQL NULLs are distinct,
so a NULL `post_uri` never conflicts); the new row takes a fresh
AUTOINCREMENT id. -/
def insertFeedRequestPost (tbl : List FeedRequestPostRow) (nid : Nat) (rid : Int)
    (uri : Option JVal) (pidx : Option Int) (pj : StoredJson) :
    List FeedRequestPostRow :=
  let tbl' :=
    match uri with
    | some _ => tbl.filter (fun row => decide ¬(row.request_id = rid ∧ row.post_uri = uri))
    | none => tbl
  tbl' ++ [{ id := nid, request_id := rid, post_index := pidx, post_uri := uri, post_json := pj }]

/-- The body of `store_feed_retrievals`' inner `for index, post in
enumerate(posts)` loop (the enumerate index itself is never used): upsert the
posts-directory placeholder, compute the normalized rank from the payload's
`position` field, and insert the child row. -/
def storeOnePost (db : DB) (rid : Int) (item : PostItem) : DB :=
  let kvs := match item with
    | .obj kvs => kvs
    | .nonObj _ => []
  let posts' := upsertPostPlaceholder db.posts kvs
  let uriJ := pyOr (jget kvs "uri") (jget kvs "postUri")
  let uriStored : Option JVal :=
    match uriJ with
    | none => none
    | some .jnull => none
    | some v => some v
  let positionValue := coercePayloadPosition (jgetOrNull kvs "position")
  { db with
      posts := posts'
      feed_request_posts :=
        insertFeedRequestPost db.feed_request_posts db.next_post_row_id rid
          uriStored positionValue (.val (.obj kvs))
      next_post_row_id := db.next_post_row_id + 1 }

/-- One iteration of `store_feed_retrievals`' outer loop: skip records without
an id; otherwise `INSERT OR REPLACE` the `feed_requests` row, delete the prior
child rows, and insert the new child set. -/
def storeOneRetrieval (db : DB) (r : Retrieval) : DB × Nat :=
  match r.id with
  | none => (db, 0)
  | some rid =>
    let posts := match r.posts with
      | some l => if l.isEmpty then [] else l
      | none => []
    let reqRow : FeedRequestRow :=
      { request_id := rid, requester_did := requesterOf r, algo := r.algo,
        timestamp := r.timestamp, posts_json := posts }
    let db1 :=
      { db with
          feed_requests :=
            db.feed_requests.filter (fun row => decide ¬(row.request_id = rid)) ++ [reqRow]
          feed_request_posts :=
            db.feed_request_posts.filter (fun row => decide ¬(row.request_id = rid)) }
    (posts.foldl (fun acc item => storeOnePost acc rid item) db1, 1)

/-- `database.store_feed_retrievals`, returning the new state and the count of
snapshots written. -/
def store_feed_retrievals (db : DB) (rs : List Retrieval) : DB × Nat :=
  rs.foldl (fun acc r =>
    let (db', n) := storeOneRetrieval acc.1 r
    (db', acc.2 + n)) (db, 0)

/-! ## Feed cache and the position matcher -/

/-- `bisect.bisect_right`'s `while lo < hi` loop.  The fuel argument only
bounds the iteration count; since `hi - lo` strictly decreases each round,
`hi - lo ≤ fuel` makes the `fuel = 0` branch unreachable. -/
def bisectRightAux (a : List TS) (x : TS) : Nat → Nat → Nat → Nat
  | 0, lo, _ => lo
  | fuel + 1, lo, hi =>
    if lo < hi then
      let mid := (lo + hi) / 2
      if TS.ltb x (a.getD mid .ninf) then bisectRightAux a x fuel lo mid
      else bisectRightAux a x fuel (mid + 1) hi
    else lo

def bisect_right (a : List TS) (x : TS) : Nat :=
  bisectRightAux a x (a.length + 1) 0 a.length

/-- `database.FeedCacheEntry` (timestamp as UTC epoch microseconds). -/
structure FeedCacheEntry where
  request_id : Int
  timestamp : Option Int
  has_posts : Bool
deriving DecidableEq, Repr

/-- `database.FeedCache`. -/
structure FeedCache where
  entries : List FeedCacheEntry
  timestamps : List TS
deriving DecidableEq, Repr

/-- Out-of-range default for `cache.entries[idx]` (never used: the selected
index is always in range). -/
def dEntry : FeedCacheEntry :=
  { request_id := 0, timestamp := none, has_posts := false }

/-- Numeric form appended to `FeedCache.timestamps`: `feed_dt.timestamp()`
when the raw string parses, float `-inf` otherwise. -/
def tsNumOf (t : Option String) : TS :=
  match parse_datetime t with
  | some m => .fin m
  | none => .ninf

/-- `database._load_feed_cache`: the requester's `feed_requests` rows ordered
by the raw `timestamp` TEXT ascending (SQLite BINARY order; ties keep
insertion order), each annotated with whether any child rows exist. -/
def loadFeedCache (db : DB) (did : String) : FeedCache :=
  let rows := sortByLt (fun r1 r2 => optStrLt r1.timestamp r2.timestamp)
    (db.feed_requests.filter (fun r => r.requester_did == did))
  { entries := rows.map (fun r =>
      { request_id := r.request_id
        timestamp := parse_datetime r.timestamp
        has_posts := db.feed_request_posts.countP (fun p => p.request_id == r.request_id) > 0 })
    timestamps := rows.map (fun r => tsNumOf r.timestamp) }

/-- Python-dict assignment `mapping[k] = v` on an association list. -/
def assocSet (m : List (JVal × Int)) (k : JVal) (v : Int) : List (JVal × Int) :=
  if m.any (fun p => p.1 == k) then m.map (fun p => if p.1 == k then (k, v) else p)
  else m ++ [(k, v)]

def lookupAssoc (m : List (JVal × Int)) (k : JVal) : Option Int :=
  (m.find? (fun p => p.1 == k)).map (·.2)

/-- `database._load_post_mapping`: post uri → rank for the child rows of one
snapshot, skipping falsy uris and NULL ranks. -/
def loadPostMapping (db : DB) (rid : Int) : List (JVal × Int) :=
  (db.feed_request_posts.filter (fun p => p.request_id == rid)).foldl (fun m p =>
    match p.post_uri, p.post_index with
    | some u, some idx => if u.truthy then assocSet m u idx else m
    | _, _ => m) []

/-! Status codes from `constants.py`. -/

def POSITION_STATUS_MATCHED : String := "matched"
def POSITION_STATUS_NO_FEED : String := "no_feed_request"
def POSITION_STATUS_EMPTY_FEED : String := "empty_feed_posts"
def POSITION_STATUS_POST_MISSING : String := "post_not_in_feed"
def POSITION_STATUS_INVALID_TS : String := "invalid_engagement_timestamp"
def POSITION_STATUS_FEED_IN_FUTURE : String := "feed_after_engagement"
def POSITION_STATUS_MISSING_URI : String := "missing_post_uri"
def POSITION_STATUS_INVALID_FEED_TS : String := "invalid_feed_timestamp"

/-- The four values `_update_position` writes into an engagement row. -/
structure MatchOutcome where
  status : String
  request_id : Option Int := none
  post_position : Option Int := none
  age_seconds : Option ℚ := none
deriving DecidableEq, Repr

/-- `idx = bisect_right(timestamps, ts_value) - 1`, with the `idx < 0` guard:
`none` plays the role of the negative index. -/
def selectIdx (timestamps : List TS) (eMicro : Int) : Option Nat :=
  let br := bisect_right timestamps (.fin eMicro)
  if br = 0 then none else some (br - 1)

/-- The body of `match_post_positions`' per-engagement loop, computing the
status and the fields written back by `_update_position`.  The in-sweep
`feed_cache` / `post_cache` dictionaries are pure memoisation of
`_load_feed_cache` / `_load_post_mapping` over a feed store that the sweep
never mutates, so they are elided. -/
def matchEngagement (db : DB) (ts_raw did post_uri : String) : MatchOutcome :=
  if ts_raw = "" then { status := POSITION_STATUS_INVALID_TS }
  else
    match parse_datetime (some ts_raw) with
    | none => { status := POSITION_STATUS_INVALID_TS }
    | some eMicro =>
      if post_uri = "" then { status := POSITION_STATUS_MISSING_URI }
      else
        let cache := loadFeedCache db did
        if cache.timestamps.isEmpty then { status := POSITION_STATUS_NO_FEED }
        else
          match selectIdx cache.timestamps eMicro with
          | none => { status := POSITION_STATUS_NO_FEED }
          | some idx =>
            let request := cache.entries.getD idx dEntry
            match request.timestamp with
            | none =>
              { status := POSITION_STATUS_INVALID_FEED_TS, request_id := some request.request_id }
            | some fMicro =>
              if eMicro < fMicro then
                { status := POSITION_STATUS_FEED_IN_FUTURE, request_id := some request.request_id }
              else
                let age : ℚ := mkRat (eMicro - fMicro) 1000000
                if !request.has_posts then
                  { status := POSITION_STATUS_EMPTY_FEED, request_id := some request.request_id }
                else
                  match lookupAssoc (loadPostMapping db request.request_id) (.jstr post_uri) with
                  | none =>
                    { status := POSITION_STATUS_POST_MISSING, request_id := some request.request_id }
                  | some pi =>
                    { status := POSITION_STATUS_MATCHED, request_id := some request.request_id,
                      post_position := some pi, age_seconds := some age }

/-- `database._update_position` applied to one row. -/
def updatePositionRow (row : EngagementRow) (o : MatchOutcome) : EngagementRow :=
  { row with
      post_position := o.post_position
      position_feed_request_id := o.request_id
      position_age_seconds := o.age_seconds
      position_status := some o.status }

/-- `database._update_position`: `UPDATE engagements ... WHERE rowid = ?`. -/
def updatePosition (engs : List EngagementRow) (rowid : Nat) (o : MatchOutcome) :
    List EngagementRow :=
  engs.map (fun r => if r.rowid == rowid then updatePositionRow r o else r)

/-- `database.PositionMatchStats` (aggregates only; floats exact). -/
structure PositionMatchStats where
  processed : Nat := 0
  matched : Nat := 0
  age_seconds_sum : ℚ := 0
  age_samples : Nat := 0
  status_counts : List (String × Nat) := []
deriving DecidableEq, Repr

/-- `defaultdict(int)` increment, keeping first-insertion key order. -/
def bumpCount : List (String × Nat) → String → List (String × Nat)
  | [], s => [(s, 1)]
  | (k, n) :: rest, s =>
    if k == s then (k, n + 1) :: rest else (k, n) :: bumpCount rest s

/-- `PositionMatchStats.record`. -/
def PositionMatchStats.record (st : PositionMatchStats) (status : String)
    (age : Option ℚ) : PositionMatchStats :=
  let st1 := { st with
      processed := st.processed + 1
      status_counts := bumpCount st.status_counts status }
  if status = POSITION_STATUS_MATCHED then
    match age with
    | some a =>
      { st1 with
          matched := st1.matched + 1
          age_seconds_sum := st1.age_seconds_sum + a
          age_samples := st1.age_samples + 1 }
    | none => st1
  else st1

/-- The `WHERE` clause of the matcher's engagement query:
`is_subscriber = 1 AND (position_status IS NULL OR position_status != 'matched')
[AND timestamp >= since]` with `since` as its `isoformat()` TEXT parameter. -/
def eligibleRow (since : Option Int) (r : EngagementRow) : Bool :=
  r.is_subscriber == 1 &&
  (match r.position_status with
   | none => true
   | some s => s ≠ POSITION_STATUS_MATCHED) &&
  (match since with
   | none => true
   | some m => strLe (isoformatUTC m) r.timestamp)

/-- The matcher's query result: eligible rows in `ORDER BY timestamp ASC`
(TEXT order, ties keep table order), projected to the selected columns
`(rowid, timestamp, did_engagement, post_uri)`. -/
def eligibleRows (db : DB) (since : Option Int) :
    List (Nat × String × String × String) :=
  (sortByLt (fun r1 r2 => strLt r1.timestamp r2.timestamp)
      (db.engagements.filter (eligibleRow since))).map
    (fun r => (r.rowid, r.timestamp, r.did_engagement, r.post_uri))

/-- `cursor.fetchmany(chunk_size)` batching: the chunks partition the cursor
stream; the loop breaks immediately when a fetch returns no rows (so a
`chunk_size` of `0` processes nothing, as DB-API `fetchmany(0)` returns `[]`).
Fuel = list length bounds the recursion. -/
def chunkListAux : Nat → Nat → List α → List (List α)
  | _, _, [] => []
  | 0, _, _ :: _ => []
  | fuel + 1, c, l => l.take c :: chunkListAux fuel c (l.drop c)

def chunkList (c : Nat) (l : List α) : List (List α) :=
  if c = 0 then [] else chunkListAux l.length c l

/-- One engagement processed: compute the outcome against the current state,
write it back via `_update_position`, accumulate the statistics. -/
def matchStep (acc : DB × PositionMatchStats) (t : Nat × String × String × String) :
    DB × PositionMatchStats :=
  let o := matchEngagement acc.1 t.2.1 t.2.2.1 t.2.2.2
  ({ acc.1 with engagements := updatePosition acc.1.engagements t.1 o },
   acc.2.record o.status o.age_seconds)

/-- `database.match_post_positions` (default `chunk_size` is 500 in the
source): the eligible rows are streamed in chunks and each row is matched and
written back; returns the final store and the statistics. -/
def match_post_positions (db : DB) (since : Option Int) (chunk_size : Nat) :
    DB × PositionMatchStats :=
  let rows := eligibleRows db since
  (chunkList chunk_size rows).foldl (fun acc ch => ch.foldl matchStep acc) (db, {})

/-! ## `rebuild_post_indices_from_payload` -/

/-- `database.PostIndexRebuildStats`. -/
structure PostIndexRebuildStats where
  scanned : Nat := 0
  updated : Nat := 0
  missing_position : Nat := 0
  invalid_position : Nat := 0
  parse_errors : Nat := 0
deriving DecidableEq, Repr

/-- The disjoint row classes of `rebuild_post_indices_from_payload`'s loop. -/
inductive RowClass where
  | missing : RowClass
  | parseErr : RowClass
  | invalid : RowClass
  | unchanged : RowClass
  | updated (v : Int) : RowClass
deriving DecidableEq, Repr

/-- One iteration of the scan loop, as a classification. -/
def classifyRebuildRow (post_json : StoredJson) (existing : Option Int) : RowClass :=
  match post_json with
  | .empty => .missing
  | .invalid => .parseErr
  | .val (.nonObj _) => .parseErr
  | .val (.obj kvs) =>
    let position := jgetOrNull kvs "position"
    match coercePayloadPosition position with
    | none => if position = .jnull then .missing else .invalid
    | some c => if existing = some c then .unchanged else .updated c

/-- `database.rebuild_post_indices_from_payload`: scan every child row,
classify it, and apply the `(new_index, rowid)` updates with `executemany`. -/
def rebuild_post_indices_from_payload (db : DB) : DB × PostIndexRebuildStats :=
  let rows := db.feed_request_posts
  let classes := rows.map (fun r => (r.id, classifyRebuildRow r.post_json r.post_index))
  let updates := classes.filterMap (fun p =>
    match p.2 with
    | .updated v => some (v, p.1)
    | _ => none)
  let stats : PostIndexRebuildStats :=
    { scanned := rows.length
      updated := updates.length
      missing_position := classes.countP (fun p => p.2 == .missing)
      invalid_position := classes.countP (fun p => p.2 == .invalid)
      parse_errors := classes.countP (fun p => p.2 == .parseErr) }
  let newRows := updates.foldl (fun acc (u : Int × Nat) =>
    acc.map (fun r => if r.id == u.2 then { r with post_index := some u.1 } else r)) rows
  ({ db with feed_request_posts := newRows }, stats)

/-! ## Concrete stores used by scenario claims and witnesses -/

/-- The spec's end-to-end snapshot:
`{id:1, requester:"u1", ts:"2024-10-01T12:00:00Z", posts:[{uri:"p1", position:42}]}`. -/
def exRetr3 : Retrieval :=
  { id := some 1, requester_did := some "u1", timestamp := some "2024-10-01T12:00:00Z",
    posts := some [.obj [("uri", .jstr "p1"), ("position", .jint 42)]] }

/-- Store of the end-to-end scenario after persisting the snapshot and the two
subscriber engagements (u1 on p1 at 12:05, u2 on p2 at 12:10), before matching. -/
def exDb3store : DB :=
  (store_engagements (store_feed_retrievals emptyDB [exRetr3]).1
    [ { timestamp := "2024-10-01T12:05:00Z", did_engagement := "u1", post_uri := "p1",
        post_author_handle := "a", engagement_type := "like", is_subscriber := true },
      { timestamp := "2024-10-01T12:10:00Z", did_engagement := "u2", post_uri := "p2",
        post_author_handle := "a", engagement_type := "like", is_subscriber := true } ]).1

/-- The end-to-end scenario store after the matching sweep. -/
def exDb3 : DB := (match_post_positions exDb3store none 500).1

/-- A store with one snapshot that has zero captured posts and one later
subscriber engagement by the same requester (hits `empty_feed_posts`). -/
def exDbC1store : DB :=
  (store_engagements (store_feed_retrievals emptyDB
    [ { id := some 1, requester_did := some "u1",
        timestamp := some "2024-10-01T12:00:00Z", posts := some [] } ]).1
    [ { timestamp := "2024-10-01T12:05:00Z", did_engagement := "u1", post_uri := "p1",
        post_author_handle := "a", engagement_type := "like", is_subscriber := true } ]).1

def exDbC1 : DB := (match_post_positions exDbC1store none 500).1

/-- Requester `R` with a parseable 12:00 snapshot and an unparseable
(`"garbage"`) one; `"garbage"` string-sorts *after* the ISO timestamp, so the
cache's numeric array is `[12:00, -inf]` — not sorted. -/
def exDbBad : DB :=
  (store_feed_retrievals emptyDB
    [ { id := some 1, requester_did := some "R",
        timestamp := some "2024-10-01T12:00:00Z",
        posts := some [.obj [("uri", .jstr "p1"), ("position", .jint 0)]] },
      { id := some 2, requester_did := some "R",
        timestamp := some "garbage",
        posts := some [.obj [("uri", .jstr "p1"), ("position", .jint 1)]] } ]).1

/-- Requester `R` with snapshots at 12:00 and 13:00 (the spec's last-before
example). -/
def exDbTwo : DB :=
  (store_feed_retrievals emptyDB
    [ { id := some 1, requester_did := some "R",
        timestamp := some "2024-10-01T12:00:00Z",
        posts := some [.obj [("uri", .jstr "p1"), ("position", .jint 3)]] },
      { id := some 2, requester_did := some "R",
        timestamp := some "2024-10-01T13:00:00Z",
        posts := some [.obj [("uri", .jstr "p1"), ("position", .jint 5)]] } ]).1

/-- Epoch microseconds of 2024-10-01T12:30:00Z / 13:00:00Z. -/
def t1230micro : Int := 1727785800000000
def t1300micro : Int := 1727787600000000

/-! ## C3 — end-to-end scenario -/

/-- C3: after persisting snapshot `{id:1, requester:"u1",
ts:"2024-10-01T12:00:00Z", posts:[{uri:"p1", position:42}]}` via
`store_feed_retrievals`, storing the two subscriber engagements (u1/p1 at
12:05, u2/p2 at 12:10) and running `match_post_positions`, the first
engagement row has rank 42, snapshot id 1, status `matched` and attribution
age 300 seconds, and the second has status `no_feed_request` with null rank,
null snapshot id and null age. -/
theorem c3_end_to_end_scenario :
    exDb3.engagements.map (fun r =>
      (r.post_position, r.position_feed_request_id, r.position_age_seconds,
       r.position_status)) =
    [(some 42, some 1, some (mkRat 300 1), some POSITION_STATUS_MATCHED),
     (none, none, none, some POSITION_STATUS_NO_FEED)] := by
  decide

/-! ## C1 — fields written for non-matched outcomes -/

/-- Exhaustive shape of a match outcome: `matched` carries a snapshot id, a
rank and an age; `invalid_engagement_timestamp` / `missing_post_uri` /
`no_feed_request` carry nothing; the remaining four statuses carry exactly the
selected snapshot's id. -/
theorem matchEngagement_shape (db : DB) (ts did uri : String) :
    ((matchEngagement db ts did uri).status = POSITION_STATUS_MATCHED ∧
      (matchEngagement db ts did uri).request_id.isSome ∧
      (matchEngagement db ts did uri).post_position.isSome ∧
      (matchEngagement db ts did uri).age_seconds.isSome) ∨
    ((matchEngagement db ts did uri).status ∈
        ([POSITION_STATUS_INVALID_TS, POSITION_STATUS_MISSING_URI,
          POSITION_STATUS_NO_FEED] : List String) ∧
      (matchEngagement db ts did uri).request_id = none ∧
      (matchEngagement db ts did uri).post_position = none ∧
      (matchEngagement db ts did uri).age_seconds = none) ∨
    ((matchEngagement db ts did uri).status ∈
        ([POSITION_STATUS_INVALID_FEED_TS, POSITION_STATUS_FEED_IN_FUTURE,
          POSITION_STATUS_EMPTY_FEED, POSITION_STATUS_POST_MISSING] : List String) ∧
      (matchEngagement db ts did uri).request_id.isSome ∧
      (matchEngagement db ts did uri).post_position = none ∧
      (matchEngagement db ts did uri).age_seconds = none) := by
  unfold matchEngagement
  dsimp only
  repeat' split
  all_goals simp

/-- C1 (amended): for every non-matched outcome the written rank
(`post_position`) and age (`position_age_seconds`) are null; the written
snapshot id (`position_feed_request_id`) is null for
`invalid_engagement_timestamp`, `missing_post_uri` and `no_feed_request`, but
for `invalid_feed_timestamp`, `feed_after_engagement`, `empty_feed_posts` and
`post_not_in_feed` it carries the selected snapshot's id (non-null). -/
theorem c1_nonmatched_attribution_fields (db : DB) (ts did uri : String)
    (h : (matchEngagement db ts did uri).status ≠ POSITION_STATUS_MATCHED) :
    (matchEngagement db ts did uri).post_position = none ∧
    (matchEngagement db ts did uri).age_seconds = none ∧
    ((matchEngagement db ts did uri).status ∈
        ([POSITION_STATUS_INVALID_TS, POSITION_STATUS_MISSING_URI,
          POSITION_STATUS_NO_FEED] : List String) →
      (matchEngagement db ts did uri).request_id = none) ∧
    ((matchEngagement db ts did uri).status ∈
        ([POSITION_STATUS_INVALID_FEED_TS, POSITION_STATUS_FEED_IN_FUTURE,
          POSITION_STATUS_EMPTY_FEED, POSITION_STATUS_POST_MISSING] : List String) →
      (matchEngagement db ts did uri).request_id.isSome) := by
  rcases matchEngagement_shape db ts did uri with h1 | h2 | h3
  · exact absurd h1.1 h
  · rcases h2 with ⟨hmem, hreq, hpos, hage⟩
    refine ⟨hpos, hage, fun _ => hreq, fun hm => ?_⟩
    exfalso
    simp only [List.mem_cons, List.not_mem_nil, or_false] at hmem hm
    rcases hmem with he | he | he <;> rcases hm with hg | hg | hg | hg <;>
      rw [he] at hg <;>
      simp_all [POSITION_STATUS_INVALID_TS, POSITION_STATUS_MISSING_URI,
        POSITION_STATUS_NO_FEED, POSITION_STATUS_INVALID_FEED_TS,
        POSITION_STATUS_FEED_IN_FUTURE, POSITION_STATUS_EMPTY_FEED,
        POSITION_STATUS_POST_MISSING]
  · rcases h3 with ⟨hmem, hreq, hpos, hage⟩
    refine ⟨hpos, hage, fun hm => ?_, fun _ => hreq⟩
    exfalso
    simp only [List.mem_cons, List.not_mem_nil, or_false] at hmem hm
    rcases hmem with he | he | he | he <;> rcases hm with hg | hg | hg <;>
      rw [he] at hg <;>
      simp_all [POSITION_STATUS_INVALID_TS, POSITION_STATUS_MISSING_URI,
        POSITION_STATUS_NO_FEED, POSITION_STATUS_INVALID_FEED_TS,
        POSITION_STATUS_FEED_IN_FUTURE, POSITION_STATUS_EMPTY_FEED,
        POSITION_STATUS_POST_MISSING]

/-- C1 counterexample: after the sweep over `exDbC1store`, the single
engagement row carries the non-matched status `empty_feed_posts` with null
rank and null age, but its written snapshot id is `1`, not null — refuting
"rank, snapshot id and age are all null for non-matched statuses". -/
theorem c1_counterexample_snapshot_id_written :
    exDbC1.engagements.map (fun r =>
      (r.position_status, r.post_position, r.position_age_seconds,
       r.position_feed_request_id)) =
      [(some POSITION_STATUS_EMPTY_FEED, none, none, some 1)] ∧
    (some 1 : Option Int) ≠ none := by
  decide

theorem c1_witness :
    (matchEngagement exDbC1store "2024-10-01T12:05:00Z" "u1" "p1").post_position = none ∧
    (matchEngagement exDbC1store "2024-10-01T12:05:00Z" "u1" "p1").age_seconds = none ∧
    (matchEngagement exDbC1store "2024-10-01T12:05:00Z" "u1" "p1").request_id.isSome := by
  have h := c1_nonmatched_attribution_fields exDbC1store "2024-10-01T12:05:00Z" "u1" "p1"
    (by decide)
  exact ⟨h.1, h.2.1, h.2.2.2 (by decide)⟩

/-! ## C6 — rank precedence in `store_feed_retrievals` -/

theorem store_feed_retrievals_singleton (db : DB) (r : Retrieval) :
    (store_feed_retrievals db [r]).1 = (storeOneRetrieval db r).1 := by
  rcases hs : storeOneRetrieval db r with ⟨db', n⟩
  simp [store_feed_retrievals, hs]

/-- Every child row the posts-loop leaves for snapshot `rid` stores the
payload object itself and the rank coerced from that payload's `position`. -/
theorem foldPosts_rank_inv (rid : Int) :
    ∀ (posts : List PostItem) (db : DB),
    (∀ row ∈ db.feed_request_posts, row.request_id = rid →
      ∃ kvs, row.post_json = .val (.obj kvs) ∧
        row.post_index = coercePayloadPosition (jgetOrNull kvs "position")) →
    ∀ row ∈ (posts.foldl (fun acc item => storeOnePost acc rid item) db).feed_request_posts,
      row.request_id = rid →
      ∃ kvs, row.post_json = .val (.obj kvs) ∧
        row.post_index = coercePayloadPosition (jgetOrNull kvs "position")
  | [], db, hdb => by simpa using hdb
  | item :: rest, db, hdb => by
    simp only [List.foldl_cons]
    apply foldPosts_rank_inv rid rest
    intro row hrow hrid
    simp only [storeOnePost, insertFeedRequestPost] at hrow
    rcases List.mem_append.mp hrow with hmem | hmem
    · have hrowdb : row ∈ db.feed_request_posts := by
        rcases hx : (match item with
          | .obj kvs => kvs
          | .nonObj _ => ([] : Payload)) with _
        split at hmem
        · exact List.mem_of_mem_filter hmem
        · exact hmem
      exact hdb row hrowdb hrid
    · rcases List.mem_singleton.mp hmem with rfl
      exact ⟨_, rfl, rfl⟩

/-- C6: for every snapshot record with a present id, every child row written
by `store_feed_retrievals` stores as rank exactly the coercion of its own
payload's `position` field — the explicit numeric (or numeric-string)
position when present, independently of the post's index in the served list,
and SQL NULL when the payload lacks a position. -/
theorem c6_rank_precedence (db : DB) (r : Retrieval) (rid : Int)
    (h : r.id = some rid) :
    ∀ row ∈ (store_feed_retrievals db [r]).1.feed_request_posts,
      row.request_id = rid →
      ∃ kvs, row.post_json = .val (.obj kvs) ∧
        row.post_index = coercePayloadPosition (jgetOrNull kvs "position") := by
  rw [store_feed_retrievals_singleton]
  intro row hrow hrid
  simp only [storeOneRetrieval, h] at hrow
  refine foldPosts_rank_inv rid _ _ ?_ row hrow hrid
  intro row' hrow' hrid'
  exfalso
  have := List.of_mem_filter hrow'
  simp only [decide_eq_true_eq] at this
  exact this hrid'

/-- A snapshot whose second post (list index 1) carries `position: 7` while
the first carries none. -/
def r6 : Retrieval :=
  { id := some 1, requester_did := some "u1",
    timestamp := some "2024-10-01T12:00:00Z",
    posts := some [.obj [("uri", .jstr "p1")],
                   .obj [("uri", .jstr "p2"), ("position", .jint 7)]] }

theorem c6_witness :
    ((store_feed_retrievals emptyDB [r6]).1.feed_request_posts.map
        (fun row => (row.post_uri, row.post_index)) =
      [(some (.jstr "p1"), none), (some (.jstr "p2"), some 7)]) ∧
    (∃ kvs,
      ({ id := 2, request_id := 1, post_index := some 7,
         post_uri := some (.jstr "p2"),
         post_json := .val (.obj [("uri", .jstr "p2"), ("position", .jint 7)]) }
          : FeedRequestPostRow).post_json = .val (.obj kvs) ∧
      ({ id := 2, request_id := 1, post_index := some 7,
         post_uri := some (.jstr "p2"),
         post_json := .val (.obj [("uri", .jstr "p2"), ("position", .jint 7)]) }
          : FeedRequestPostRow).post_index =
        coercePayloadPosition (jgetOrNull kvs "position")) := by
  refine ⟨by decide, ?_⟩
  exact c6_rank_precedence emptyDB r6 1 rfl _ (by decide) (by decide)

/-! ## C10 — null-rank posts are invisible to the matcher -/

/-- Snapshot `{id:1, requester:"u1", ts:12:00Z, posts:[{uri:"p1"}]}` (post
present but no `position`, so its stored rank is NULL) plus a later subscriber
engagement by u1 on p1. -/
def exDb10store : DB :=
  (store_engagements (store_feed_retrievals emptyDB
    [ { id := some 1, requester_did := some "u1",
        timestamp := some "2024-10-01T12:00:00Z",
        posts := some [.obj [("uri", .jstr "p1")]] } ]).1
    [ { timestamp := "2024-10-01T12:05:00Z", did_engagement := "u1", post_uri := "p1",
        post_author_handle := "a", engagement_type := "like", is_subscriber := true } ]).1

def exDb10 : DB := (match_post_positions exDb10store none 500).1

/-- C10: a post stored in the selected snapshot's child list with a NULL rank
is omitted from `_load_post_mapping`'s post→rank map, so an engagement on it
is recorded as `post_not_in_feed` even though the post row exists; and in
general a `matched` outcome always carries a non-null rank. -/
theorem c10_null_rank_invisible :
    (∀ db : DB, ∀ ts did uri : String,
      (matchEngagement db ts did uri).status = POSITION_STATUS_MATCHED →
      (matchEngagement db ts did uri).post_position.isSome) ∧
    (exDb10store.feed_request_posts.map
        (fun row => (row.request_id, row.post_uri, row.post_index)) =
      [(1, some (.jstr "p1"), none)]) ∧
    (loadPostMapping exDb10store 1 = []) ∧
    (lookupAssoc (loadPostMapping exDb10store 1) (.jstr "p1") = none) ∧
    (exDb10.engagements.map (fun r => (r.position_status, r.post_position)) =
      [(some POSITION_STATUS_POST_MISSING, none)]) := by
  refine ⟨?_, by decide, by decide, by decide, by decide⟩
  intro db ts did uri hm
  rcases matchEngagement_shape db ts did uri with h1 | h2 | h3
  · exact h1.2.2.1
  all_goals
    exfalso
    first
      | (rcases h2 with ⟨hmem, -, -, -⟩)
      | (rcases h3 with ⟨hmem, -, -, -⟩)
    simp only [List.mem_cons, List.not_mem_nil, or_false] at hmem
    rw [hm] at hmem
    simp_all [POSITION_STATUS_MATCHED, POSITION_STATUS_INVALID_TS,
      POSITION_STATUS_MISSING_URI, POSITION_STATUS_NO_FEED,
      POSITION_STATUS_INVALID_FEED_TS, POSITION_STATUS_FEED_IN_FUTURE,
      POSITION_STATUS_EMPTY_FEED, POSITION_STATUS_POST_MISSING]

theorem c10_witness :
    (matchEngagement exDb3store "2024-10-01T12:05:00Z" "u1" "p1").post_position.isSome :=
  c10_null_rank_invisible.1 exDb3store "2024-10-01T12:05:00Z" "u1" "p1" (by decide)

/-! ## C4 — idempotence of snapshot persistence -/

/-- The conceptual content of a `feed_request_posts` row (everything except
the AUTOINCREMENT surrogate id, which is not part of the spec's
`snapshot_posts` schema and changes on every reinsert). -/
def projChild (row : FeedRequestPostRow) : Int × Option Int × Option JVal × StoredJson :=
  (row.request_id, row.post_index, row.post_uri, row.post_json)

/-- `retrieval.get("posts") or []`. -/
def retrievalPosts (r : Retrieval) : List PostItem :=
  match r.posts with
  | some l => if l.isEmpty then [] else l
  | none => []

/-- The `feed_requests` row written for retrieval `r` under id `rid`. -/
def reqRowOf (r : Retrieval) (rid : Int) : FeedRequestRow :=
  { request_id := rid, requester_did := requesterOf r, algo := r.algo,
    timestamp := r.timestamp, posts_json := retrievalPosts r }

theorem filter_idem {α : Type _} {p : α → Bool} (l : List α) :
    (l.filter p).filter p = l.filter p := by
  rw [List.filter_filter]
  exact List.filter_congr (fun a _ => Bool.and_self _)

theorem storeOnePost_feed_requests (db : DB) (rid : Int) (item : PostItem) :
    (storeOnePost db rid item).feed_requests = db.feed_requests := rfl

theorem foldPosts_feed_requests (rid : Int) :
    ∀ (posts : List PostItem) (db : DB),
    (posts.foldl (fun acc item => storeOnePost acc rid item) db).feed_requests =
      db.feed_requests
  | [], _ => rfl
  | item :: rest, db => by
    simp only [List.foldl_cons]
    rw [foldPosts_feed_requests rid rest, storeOnePost_feed_requests]

/-- Deleting snapshot `rid`'s rows after the posts-loop gives the same result
as deleting them before: the loop only adds (and conflicts away) rows of
snapshot `rid`. -/
theorem foldPosts_filter_ne (rid : Int) :
    ∀ (posts : List PostItem) (db : DB),
    ((posts.foldl (fun acc item => storeOnePost acc rid item) db).feed_request_posts).filter
        (fun row => decide ¬(row.request_id = rid)) =
      db.feed_request_posts.filter (fun row => decide ¬(row.request_id = rid))
  | [], _ => rfl
  | item :: rest, db => by
    simp only [List.foldl_cons]
    rw [foldPosts_filter_ne rid rest]
    show ((insertFeedRequestPost db.feed_request_posts _ rid _ _ _).filter _) = _
    unfold insertFeedRequestPost
    rw [List.filter_append]
    have hsing : ∀ (nid : Nat) (pidx : Option Int) (uri : Option JVal) (pj : StoredJson),
        (([{ id := nid, request_id := rid, post_index := pidx, post_uri := uri,
             post_json := pj }] : List FeedRequestPostRow).filter
          (fun row => decide ¬(row.request_id = rid))) = [] := by
      intro nid pidx uri pj
      simp
    rw [hsing, List.append_nil]
    split
    · rw [List.filter_filter]
      refine List.filter_congr ?_
      intro row _
      by_cases hr : row.request_id = rid <;> simp [hr]
    · rfl

/-- The projection to conceptual content of the posts-loop's result depends
only on the projection of the starting child table (not on the AUTOINCREMENT
counter or the other tables). -/
theorem foldPosts_proj_congr (rid : Int) :
    ∀ (posts : List PostItem) (dbA dbB : DB),
    dbA.feed_request_posts.map projChild = dbB.feed_request_posts.map projChild →
    ((posts.foldl (fun acc item => storeOnePost acc rid item) dbA).feed_request_posts).map
        projChild =
      ((posts.foldl (fun acc item => storeOnePost acc rid item) dbB).feed_request_posts).map
        projChild
  | [], _, _, h => h
  | item :: rest, dbA, dbB, h => by
    simp only [List.foldl_cons]
    refine foldPosts_proj_congr rid rest _ _ ?_
    show ((insertFeedRequestPost dbA.feed_request_posts _ rid _ _ _).map projChild) =
      ((insertFeedRequestPost dbB.feed_request_posts _ rid _ _ _).map projChild)
    unfold insertFeedRequestPost
    rw [List.map_append, List.map_append]
    congr 1
    have hfact : ∀ (tbl : List FeedRequestPostRow) (u : Option JVal),
        (tbl.filter (fun row => decide ¬(row.request_id = rid ∧ row.post_uri = u))).map
            projChild =
          (tbl.map projChild).filter (fun t => decide ¬(t.1 = rid ∧ t.2.2.1 = u)) :=
      fun tbl u => by
        have h2 := List.filter_map
          (p := fun t : Int × Option Int × Option JVal × StoredJson =>
            decide ¬(t.1 = rid ∧ t.2.2.1 = u)) projChild tbl
        rw [show ((fun t : Int × Option Int × Option JVal × StoredJson =>
            decide ¬(t.1 = rid ∧ t.2.2.1 = u)) ∘ projChild) =
          (fun row => decide ¬(row.request_id = rid ∧ row.post_uri = u)) from rfl] at h2
        exact h2.symm
    split
    · rw [hfact, hfact, h]
    · exact h

theorem storeOneRetrieval_some (db : DB) (r : Retrieval) (rid : Int)
    (h : r.id = some rid) :
    (storeOneRetrieval db r).1 =
      (retrievalPosts r).foldl (fun acc item => storeOnePost acc rid item)
        { db with
            feed_requests :=
              db.feed_requests.filter (fun row => decide ¬(row.request_id = rid)) ++
                [reqRowOf r rid]
            feed_request_posts :=
              db.feed_request_posts.filter (fun row => decide ¬(row.request_id = rid)) } := by
  simp only [storeOneRetrieval, h, retrievalPosts, reqRowOf]

/-- C4: persisting a snapshot record (with a present id) after any earlier
version with the same id — in particular persisting the same record twice —
leaves exactly the same `feed_requests` rows and the same conceptual child
rows (`request_id`, rank, uri, payload; only the AUTOINCREMENT surrogate key
is necessarily fresh) as persisting it once: prior children are deleted
before the new set is inserted, replaced rather than duplicated or merged. -/
theorem c4_store_idempotent (db : DB) (r r' : Retrieval) (rid : Int)
    (h : r.id = some rid) (h' : r'.id = some rid) :
    (store_feed_retrievals (store_feed_retrievals db [r']).1 [r]).1.feed_requests =
      (store_feed_retrievals db [r]).1.feed_requests ∧
    ((store_feed_retrievals (store_feed_retrievals db [r']).1 [r]).1.feed_request_posts).map
        projChild =
      ((store_feed_retrievals db [r]).1.feed_request_posts).map projChild := by
  rw [store_feed_retrievals_singleton, store_feed_retrievals_singleton,
    store_feed_retrievals_singleton]
  rw [storeOneRetrieval_some db r' rid h']
  rw [storeOneRetrieval_some _ r rid h, storeOneRetrieval_some db r rid h]
  constructor
  · simp only [foldPosts_feed_requests]
    rw [List.filter_append]
    have hsing : (([reqRowOf r' rid] : List FeedRequestRow).filter
        (fun row => decide ¬(row.request_id = rid))) = [] := by
      simp [reqRowOf]
    rw [hsing, List.append_nil, filter_idem]
  · refine foldPosts_proj_congr rid _ _ _ (congrArg (List.map projChild) ?_)
    simp only [foldPosts_filter_ne]
    exact filter_idem _

theorem c4_witness :
    (store_feed_retrievals (store_feed_retrievals emptyDB [exRetr3]).1 [exRetr3]).1.feed_requests =
      (store_feed_retrievals emptyDB [exRetr3]).1.feed_requests ∧
    ((store_feed_retrievals (store_feed_retrievals emptyDB [exRetr3]).1
        [exRetr3]).1.feed_request_posts).map projChild =
      ((store_feed_retrievals emptyDB [exRetr3]).1.feed_request_posts).map projChild :=
  c4_store_idempotent emptyDB exRetr3 exRetr3 1 rfl rfl

/-! ## C5 — reconciliation classification -/

/-- Every classified row falls in exactly one of the five classes: the length
of a class list is the sum of the per-class counts. -/
theorem rowclass_partition : ∀ l : List (Nat × RowClass),
    l.length =
      (l.filterMap (fun p => match p.2 with
        | .updated v => some (v, p.1)
        | _ => none)).length +
      l.countP (fun p => p.2 == RowClass.missing) +
      l.countP (fun p => p.2 == RowClass.invalid) +
      l.countP (fun p => p.2 == RowClass.parseErr) +
      l.countP (fun p => p.2 == RowClass.unchanged)
  | [] => rfl
  | x :: xs => by
    have ih := rowclass_partition xs
    cases hx : x.2 <;>
      simp [List.filterMap_cons, List.countP_cons, hx, ih] <;> omega

/-- `executemany` of independent per-rowid updates is a per-element map. -/
theorem foldl_update_map (g : Int × Nat → FeedRequestPostRow → FeedRequestPostRow) :
    ∀ (us : List (Int × Nat)) (rows : List FeedRequestPostRow),
    us.foldl (fun acc u => acc.map (g u)) rows =
      rows.map (fun r => us.foldl (fun x u => g u x) r)
  | [], rows => by simp
  | u :: us', rows => by
    simp only [List.foldl_cons]
    rw [foldl_update_map g us' (rows.map (g u)), List.map_map]
    rfl

/-- Applying a sequence of updates none of which targets this rowid is a
no-op. -/
theorem applyUpdates_nomatch :
    ∀ (us : List (Int × Nat)) (r : FeedRequestPostRow),
    (∀ u ∈ us, ¬(r.id = u.2)) →
    us.foldl (fun x u =>
      if x.id == u.2 then { x with post_index := some u.1 } else x) r = r
  | [], _, _ => rfl
  | u :: us', r, h => by
    simp only [List.foldl_cons]
    have hne : (r.id == u.2) = false := by
      simpa using h u (List.mem_cons_self u us')
    rw [hne]
    simp only [Bool.false_eq_true, if_false]
    exact applyUpdates_nomatch us' r (fun u' hu' => h u' (List.mem_cons_of_mem u hu'))

/-- Once the rank is `some v`, further updates that all carry `v` for this
rowid leave the row unchanged. -/
theorem applyUpdates_stable :
    ∀ (us : List (Int × Nat)) (r : FeedRequestPostRow) (v : Int),
    r.post_index = some v →
    (∀ u ∈ us, u.2 = r.id → u.1 = v) →
    us.foldl (fun x u =>
      if x.id == u.2 then { x with post_index := some u.1 } else x) r = r
  | [], _, _, _, _ => rfl
  | u :: us', r, v, hpi, hval => by
    simp only [List.foldl_cons]
    by_cases hid : r.id = u.2
    · have hb : (r.id == u.2) = true := by simpa using hid
      rw [hb]
      simp only [if_true]
      have hv : u.1 = v := hval u (List.mem_cons_self u us') hid.symm
      have hrow : ({ r with post_index := some u.1 } : FeedRequestPostRow) = r := by
        cases r
        simp_all
      rw [hrow]
      exact applyUpdates_stable us' r v hpi
        (fun u' hu' => hval u' (List.mem_cons_of_mem u hu'))
    · have hb : (r.id == u.2) = false := by simpa using hid
      rw [hb]
      simp only [Bool.false_eq_true, if_false]
      exact applyUpdates_stable us' r v hpi
        (fun u' hu' => hval u' (List.mem_cons_of_mem u hu'))

/-- If some update targets this rowid and all updates that do carry the same
value, the row ends with exactly that rank. -/
theorem applyUpdates_match :
    ∀ (us : List (Int × Nat)) (r : FeedRequestPostRow) (v : Int),
    (∃ u ∈ us, u.2 = r.id) →
    (∀ u ∈ us, u.2 = r.id → u.1 = v) →
    us.foldl (fun x u =>
      if x.id == u.2 then { x with post_index := some u.1 } else x) r =
      { r with post_index := some v }
  | [], _, _, hmem, _ => by simp at hmem
  | u :: us', r, v, hmem, hval => by
    simp only [List.foldl_cons]
    by_cases hid : r.id = u.2
    · have hb : (r.id == u.2) = true := by simpa using hid
      rw [hb]
      simp only [if_true]
      have hv : u.1 = v := hval u (List.mem_cons_self u us') hid.symm
      rw [hv]
      exact applyUpdates_stable us' _ v rfl
        (fun u' hu' h' => hval u' (List.mem_cons_of_mem u hu') h')
    · have hb : (r.id == u.2) = false := by simpa using hid
      rw [hb]
      simp only [Bool.false_eq_true, if_false]
      rcases hmem with ⟨u', hu', hu'id⟩
      rcases List.mem_cons.mp hu' with rfl | hu'mem
      · exact absurd hu'id.symm hid
      · exact applyUpdates_match us' r v ⟨u', hu'mem, hu'id⟩
          (fun w hw h' => hval w (List.mem_cons_of_mem u hw) h')

/-- Membership in the rebuild pass's update list. -/
theorem mem_rebuild_updates {db : DB} {u : Int × Nat} :
    u ∈ (db.feed_request_posts.map (fun r =>
        (r.id, classifyRebuildRow r.post_json r.post_index))).filterMap
      (fun p => match p.2 with
        | .updated v => some (v, p.1)
        | _ => none) ↔
    ∃ r ∈ db.feed_request_posts,
      classifyRebuildRow r.post_json r.post_index = .updated u.1 ∧ r.id = u.2 := by
  rw [List.mem_filterMap]
  constructor
  · rintro ⟨p, hp, hf⟩
    rcases List.mem_map.mp hp with ⟨r, hr, rfl⟩
    rcases hc : classifyRebuildRow r.post_json r.post_index with _ | _ | _ | _ | w <;>
      simp [hc] at hf
    subst hf
    exact ⟨r, hr, by simp [hc], rfl⟩
  · rintro ⟨r, hr, hc, hid⟩
    refine ⟨(r.id, classifyRebuildRow r.post_json r.post_index),
      List.mem_map_of_mem _ hr, ?_⟩
    simp [hc, hid]

/-- A row classified `updated v` had a stored rank different from `v`. -/
theorem classify_updated_ne (pj : StoredJson) (ex : Option Int) (v : Int)
    (h : classifyRebuildRow pj ex = .updated v) : ex ≠ some v := by
  unfold classifyRebuildRow at h
  dsimp only at h
  repeat' split at h
  all_goals simp_all

/-- C5: `rebuild_post_indices_from_payload` classifies every scanned row into
exactly one of the five classes (`scanned = updated + missing_position +
invalid_position + parse_errors + unchanged`), overwrites a stored rank only
for rows whose payload-derived position differs from it (the resulting table
is the per-row reclassification map), and the shared coercion accepts
integers, integer-valued floats and strings thereof while rejecting
non-integral or unparseable values. -/
theorem c5_rebuild_classification (db : DB)
    (hnodup : (db.feed_request_posts.map (fun r => r.id)).Nodup) :
    (rebuild_post_indices_from_payload db).2.scanned = db.feed_request_posts.length ∧
    (rebuild_post_indices_from_payload db).2.scanned =
      (rebuild_post_indices_from_payload db).2.updated +
      (rebuild_post_indices_from_payload db).2.missing_position +
      (rebuild_post_indices_from_payload db).2.invalid_position +
      (rebuild_post_indices_from_payload db).2.parse_errors +
      db.feed_request_posts.countP
        (fun r => classifyRebuildRow r.post_json r.post_index == RowClass.unchanged) ∧
    (rebuild_post_indices_from_payload db).1.feed_request_posts =
      db.feed_request_posts.map (fun r =>
        match classifyRebuildRow r.post_json r.post_index with
        | .updated v => { r with post_index := some v }
        | _ => r) ∧
    (∀ pj ex v, classifyRebuildRow pj ex = .updated v → ex ≠ some v) ∧
    (∀ n : Int, coercePayloadPosition (.jint n) = some n) ∧
    (∀ q : ℚ, q.den = 1 → coercePayloadPosition (.jfloat q) = some q.num) ∧
    (∀ q : ℚ, q.den ≠ 1 → coercePayloadPosition (.jfloat q) = none) ∧
    coercePayloadPosition (.jstr "7") = some 7 ∧
    coercePayloadPosition (.jstr "7.0") = some 7 ∧
    coercePayloadPosition (.jstr "7.5") = none ∧
    coercePayloadPosition (.jstr "abc") = none ∧
    coercePayloadPosition .jnull = none := by
  refine ⟨rfl, ?_, ?_, classify_updated_ne, fun n => rfl, ?_, ?_,
    by decide, by decide, by decide, by decide, rfl⟩
  · have hpart := rowclass_partition (db.feed_request_posts.map (fun r =>
      (r.id, classifyRebuildRow r.post_json r.post_index)))
    rw [List.length_map] at hpart
    have hcnt : (db.feed_request_posts.map (fun r =>
        (r.id, classifyRebuildRow r.post_json r.post_index))).countP
          (fun p => p.2 == RowClass.unchanged) =
        db.feed_request_posts.countP
          (fun r => classifyRebuildRow r.post_json r.post_index == RowClass.unchanged) :=
      List.countP_map _ _ _
    rw [hcnt] at hpart
    exact hpart
  · have h3 := foldl_update_map
      (fun u r => if r.id == u.2 then { r with post_index := some u.1 } else r)
      ((db.feed_request_posts.map (fun r =>
          (r.id, classifyRebuildRow r.post_json r.post_index))).filterMap
        (fun p => match p.2 with
          | .updated v => some (v, p.1)
          | _ => none))
      db.feed_request_posts
    refine Eq.trans h3 ?_
    refine List.map_congr_left ?_
    intro r hr
    dsimp only
    rcases hcr : classifyRebuildRow r.post_json r.post_index with _ | _ | _ | _ | v
    case updated =>
      refine applyUpdates_match _ r v
        ⟨(v, r.id), mem_rebuild_updates.mpr ⟨r, hr, hcr, rfl⟩, rfl⟩ ?_
      intro u hu hid
      rcases mem_rebuild_updates.mp hu with ⟨r', hr', hcr', hid'⟩
      have hrr : r' = r := List.inj_on_of_nodup_map hnodup hr' hr (by rw [hid', hid])
      rw [hrr, hcr] at hcr'
      injection hcr' with hv
      exact hv.symm
    all_goals
      refine applyUpdates_nomatch _ r ?_
      intro u hu hid
      rcases mem_rebuild_updates.mp hu with ⟨r', hr', hcr', hid'⟩
      have hrr : r' = r := List.inj_on_of_nodup_map hnodup hr' hr (by rw [hid', hid])
      rw [hrr, hcr] at hcr'
      exact absurd hcr' (by simp)
  · intro q hq
    simp [coercePayloadPosition, hq]
  · intro q hq
    simp [coercePayloadPosition, hq]

/-- Five legacy child rows covering every reconciliation class. -/
def exDb5 : DB :=
  { emptyDB with feed_request_posts :=
      [ { id := 1, request_id := 1, post_index := some 3, post_uri := some (.jstr "a"),
          post_json := .val (.obj [("position", .jint 3)]) },
        { id := 2, request_id := 1, post_index := none, post_uri := some (.jstr "b"),
          post_json := .val (.obj [("position", .jint 4)]) },
        { id := 3, request_id := 1, post_index := none, post_uri := some (.jstr "c"),
          post_json := .val (.obj []) },
        { id := 4, request_id := 1, post_index := none, post_uri := some (.jstr "d"),
          post_json := .val (.obj [("position", .jstr "x")]) },
        { id := 5, request_id := 1, post_index := none, post_uri := some (.jstr "e"),
          post_json := .invalid } ] }

theorem c5_witness :
    (rebuild_post_indices_from_payload exDb5).2 =
      { scanned := 5, updated := 1, missing_position := 1, invalid_position := 1,
        parse_errors := 1 } ∧
    (rebuild_post_indices_from_payload exDb5).1.feed_request_posts =
      exDb5.feed_request_posts.map (fun r =>
        match classifyRebuildRow r.post_json r.post_index with
        | .updated v => { r with post_index := some v }
        | _ => r) :=
  ⟨by decide, (c5_rebuild_classification exDb5 (by decide)).2.2.1⟩

/-! ## C2 — last-one-not-after selection on a sorted cache -/

theorem TS.leb_refl (a : TS) : TS.leb a a = true := by
  cases a <;> simp [TS.leb]

theorem TS.ltb_of_ltb_of_leb {x a b : TS} (h1 : TS.ltb x a = true)
    (h2 : TS.leb a b = true) : TS.ltb x b = true := by
  cases x <;> cases a <;> cases b <;> simp_all [TS.ltb, TS.leb] <;> omega

theorem TS.ltb_false_of_leb {x a b : TS} (h1 : TS.leb a b = true)
    (h2 : TS.ltb x b = false) : TS.ltb x a = false := by
  cases x <;> cases a <;> cases b <;> simp_all [TS.ltb, TS.leb] <;> omega

theorem TS.leb_of_ltb_false {s x : TS} (h : TS.ltb x s = false) :
    TS.leb s x = true := by
  cases s <;> cases x <;> simp_all [TS.ltb, TS.leb] <;> omega

theorem getD_eq_getElem' {α : Type _} (l : List α) (i : Nat) (h : i < l.length)
    (d : α) : l.getD i d = l[i] := by
  simp [List.getD_eq_getElem?_getD, List.getElem?_eq_getElem h]

/-- Loop invariant of `bisect_right`'s binary search on a sorted array: the
result is a partition point — everything strictly below it is `≤ x`,
everything at or above it is `> x`. -/
theorem bisectRightAux_spec (a : List TS) (x : TS)
    (hsort : ∀ i j, i ≤ j → j < a.length →
      TS.leb (a.getD i .ninf) (a.getD j .ninf) = true) :
    ∀ (fuel lo hi : Nat), lo ≤ hi → hi ≤ a.length → hi - lo ≤ fuel →
    (∀ i, i < lo → TS.ltb x (a.getD i .ninf) = false) →
    (∀ i, hi ≤ i → i < a.length → TS.ltb x (a.getD i .ninf) = true) →
    lo ≤ bisectRightAux a x fuel lo hi ∧ bisectRightAux a x fuel lo hi ≤ hi ∧
      (∀ i, i < bisectRightAux a x fuel lo hi → TS.ltb x (a.getD i .ninf) = false) ∧
      (∀ i, bisectRightAux a x fuel lo hi ≤ i → i < a.length →
        TS.ltb x (a.getD i .ninf) = true)
  | 0, lo, hi, hlohi, hhi, hfuel, hlow, habove => by
    have : lo = hi := by omega
    subst this
    exact ⟨Nat.le_refl _, Nat.le_refl _, hlow, fun i hi' hlen => habove i hi' hlen⟩
  | fuel + 1, lo, hi, hlohi, hhi, hfuel, hlow, habove => by
    have hstep : bisectRightAux a x (fuel + 1) lo hi =
        if lo < hi then
          (if TS.ltb x (a.getD ((lo + hi) / 2) .ninf) then
            bisectRightAux a x fuel lo ((lo + hi) / 2)
          else bisectRightAux a x fuel ((lo + hi) / 2 + 1) hi)
        else lo := rfl
    rw [hstep]
    by_cases hlt : lo < hi
    · simp only [hlt, if_true]
      by_cases hx : TS.ltb x (a.getD ((lo + hi) / 2) .ninf) = true
      · simp only [hx, if_true]
        have ih := bisectRightAux_spec a x hsort fuel lo ((lo + hi) / 2)
          (by omega) (by omega) (by omega) hlow
          (fun i hi' hlen => TS.ltb_of_ltb_of_leb hx (hsort _ i hi' hlen))
        exact ⟨ih.1, by omega, ih.2.2.1, ih.2.2.2⟩
      · have hxf : TS.ltb x (a.getD ((lo + hi) / 2) .ninf) = false := by
          simpa using hx
        simp only [hxf, Bool.false_eq_true, if_false]
        have ih := bisectRightAux_spec a x hsort fuel ((lo + hi) / 2 + 1) hi
          (by omega) hhi (by omega)
          (fun i hi' => by
            by_cases hilo : i < lo
            · exact hlow i hilo
            · exact TS.ltb_false_of_leb
                (hsort i ((lo + hi) / 2) (by omega) (by omega)) hxf)
          habove
        exact ⟨by omega, ih.2.1, ih.2.2.1, ih.2.2.2⟩
    · simp only [hlt, if_false]
      have : lo = hi := by omega
      subst this
      exact ⟨Nat.le_refl _, Nat.le_refl _, hlow, fun i hi' hlen => habove i hi' hlen⟩

theorem bisect_right_spec (a : List TS) (x : TS)
    (hsort : ∀ i j, i ≤ j → j < a.length →
      TS.leb (a.getD i .ninf) (a.getD j .ninf) = true) :
    bisect_right a x ≤ a.length ∧
      (∀ i, i < bisect_right a x → TS.ltb x (a.getD i .ninf) = false) ∧
      (∀ i, bisect_right a x ≤ i → i < a.length → TS.ltb x (a.getD i .ninf) = true) := by
  have h := bisectRightAux_spec a x hsort (a.length + 1) 0 a.length
    (Nat.zero_le _) (Nat.le_refl _) (by omega)
    (fun i hi => absurd hi (Nat.not_lt_zero i))
    (fun i hi hlen => absurd hlen (by omega))
  exact ⟨h.2.1, h.2.2.1, h.2.2.2⟩

/-- Index-wise form of a sorted timestamps array. -/
theorem pairwise_le_getD (l : List TS)
    (h : l.Pairwise (fun s t => TS.leb s t = true)) :
    ∀ i j, i ≤ j → j < l.length →
      TS.leb (l.getD i .ninf) (l.getD j .ninf) = true := by
  intro i j hij hj
  rcases Nat.eq_or_lt_of_le hij with rfl | hlt
  · exact TS.leb_refl _
  · rw [getD_eq_getElem' l i (by omega), getD_eq_getElem' l j hj]
    exact List.pairwise_iff_getElem.mp h i j (by omega) hj hlt

/-- The parallel arrays of `_load_feed_cache` agree position-wise: the numeric
value at `j` is the entry's parsed timestamp, or `-inf` when it is `None`. -/
theorem ts_entry_corr (rows : List FeedRequestRow) (f : FeedRequestRow → FeedCacheEntry)
    (hf : ∀ r, (f r).timestamp = parse_datetime r.timestamp) (j : Nat)
    (hj : j < rows.length) :
    (rows.map (fun r => tsNumOf r.timestamp)).getD j .ninf =
      (match ((rows.map f).getD j dEntry).timestamp with
       | some m => TS.fin m
       | none => TS.ninf) := by
  rw [getD_eq_getElem' _ j (by simpa using hj), List.getElem_map,
    getD_eq_getElem' _ j (by simpa using hj), List.getElem_map, hf]
  rfl

/-- C2 (amended): for a requester cache whose numeric timestamp array is
sorted ascending, whenever at least one snapshot has a parseable timestamp at
or before the engagement instant, the index selected by the matcher's binary
search points at a snapshot whose parsed timestamp is the latest one not
after the engagement (ties inclusive: a snapshot at the exact engagement
instant is eligible). -/
theorem c2_selects_latest_not_after (db : DB) (did : String) (eMicro : Int)
    (hsorted : (loadFeedCache db did).timestamps.Pairwise
      (fun s t => TS.leb s t = true))
    (hex : ∃ j, j < (loadFeedCache db did).entries.length ∧ ∃ u,
      ((loadFeedCache db did).entries.getD j
        dEntry).timestamp = some u ∧
      u ≤ eMicro) :
    ∃ i, selectIdx (loadFeedCache db did).timestamps eMicro = some i ∧
      i < (loadFeedCache db did).entries.length ∧
      ∃ t, ((loadFeedCache db did).entries.getD i
          dEntry).timestamp = some t ∧
        t ≤ eMicro ∧
        (∀ j, j < (loadFeedCache db did).entries.length →
          ∀ u, ((loadFeedCache db did).entries.getD j
              dEntry).timestamp = some u →
            u ≤ eMicro → u ≤ t) := by
  rcases hex with ⟨j, hj, u, hu, hue⟩
  have hlen : (loadFeedCache db did).timestamps.length =
      (loadFeedCache db did).entries.length := by
    simp [loadFeedCache]
  have hcorr : ∀ k, k < (loadFeedCache db did).entries.length →
      (loadFeedCache db did).timestamps.getD k .ninf =
        (match ((loadFeedCache db did).entries.getD k dEntry).timestamp with
         | some m => TS.fin m
         | none => TS.ninf) := by
    intro k hk
    exact ts_entry_corr _ _ (fun r => rfl) k (by
      have : (loadFeedCache db did).entries.length =
          (sortByLt (fun r1 r2 => optStrLt r1.timestamp r2.timestamp)
            (db.feed_requests.filter (fun r => r.requester_did == did))).length := by
        simp [loadFeedCache]
      omega)
  have hspec := bisect_right_spec (loadFeedCache db did).timestamps (.fin eMicro)
    (pairwise_le_getD _ hsorted)
  set a := (loadFeedCache db did).timestamps with ha
  set br := bisect_right a (.fin eMicro) with hbr
  have haj : a.getD j .ninf = TS.fin u := by
    rw [hcorr j hj, hu]
  have hjlt : j < br := by
    by_contra hc
    have := hspec.2.2 j (by omega) (by omega)
    rw [haj] at this
    simp [TS.ltb] at this
    omega
  have hbrpos : br ≠ 0 := by omega
  refine ⟨br - 1, ?_, by omega, ?_⟩
  · simp only [selectIdx, ← hbr, hbrpos, if_false]
  · have hisel : br - 1 < a.length := by omega
    have hbelow := hspec.2.1 (br - 1) (by omega)
    have hle : TS.leb (a.getD (br - 1) .ninf) (.fin eMicro) = true :=
      TS.leb_of_ltb_false hbelow
    have hja : TS.leb (a.getD j .ninf) (a.getD (br - 1) .ninf) = true :=
      pairwise_le_getD _ hsorted j (br - 1) (by omega) hisel
    rw [haj] at hja
    rcases hai : a.getD (br - 1) .ninf with _ | t
    · rw [hai] at hja
      simp [TS.leb] at hja
    · have hentry : ((loadFeedCache db did).entries.getD (br - 1) dEntry).timestamp = some t := by
        have := hcorr (br - 1) (by omega)
        rw [hai] at this
        rcases he : ((loadFeedCache db did).entries.getD (br - 1) dEntry).timestamp with _ | m
        · rw [he] at this
          simp at this
        · rw [he] at this
          simp at this
          rw [this]
      refine ⟨t, hentry, ?_, ?_⟩
      · rw [hai] at hle
        simpa [TS.leb] using hle
      · intro j' hj' u' hu' hu'e
        have haj' : a.getD j' .ninf = TS.fin u' := by
          rw [hcorr j' hj', hu']
        have hj'lt : j' < br := by
          by_contra hc
          have := hspec.2.2 j' (by omega) (by omega)
          rw [haj'] at this
          simp [TS.ltb] at this
          omega
        have := pairwise_le_getD _ hsorted j' (br - 1) (by omega) hisel
        rw [haj', hai] at this
        simpa [TS.leb] using this

/-- C2 counterexample: in `exDbBad` the cache's numeric array is unsorted
(the unparseable `"garbage"` timestamp string-sorts after the ISO one), and
for an engagement at 12:30 the binary search selects index 1 — the snapshot
with *no* parseable timestamp — although snapshot 1 (index 0) is stamped
12:00 ≤ 12:30; the engagement is flagged `invalid_feed_timestamp` instead of
being matched against the latest not-after snapshot. -/
theorem c2_counterexample_unsorted_cache :
    selectIdx (loadFeedCache exDbBad "R").timestamps t1230micro = some 1 ∧
    ((loadFeedCache exDbBad "R").entries.getD 1 dEntry).timestamp = none ∧
    ((loadFeedCache exDbBad "R").entries.getD 0 dEntry).timestamp =
      some 1727784000000000 ∧
    (1727784000000000 : Int) ≤ t1230micro ∧
    (matchEngagement exDbBad "2024-10-01T12:30:00Z" "R" "p1").status =
      POSITION_STATUS_INVALID_FEED_TS := by
  decide

theorem c2_witness :
    (∃ i, selectIdx (loadFeedCache exDbTwo "R").timestamps t1230micro = some i ∧
      i < (loadFeedCache exDbTwo "R").entries.length ∧
      ∃ t, ((loadFeedCache exDbTwo "R").entries.getD i dEntry).timestamp = some t ∧
        t ≤ t1230micro ∧
        (∀ j, j < (loadFeedCache exDbTwo "R").entries.length →
          ∀ u, ((loadFeedCache exDbTwo "R").entries.getD j dEntry).timestamp = some u →
            u ≤ t1230micro → u ≤ t)) ∧
    selectIdx (loadFeedCache exDbTwo "R").timestamps t1230micro = some 0 ∧
    ((loadFeedCache exDbTwo "R").entries.getD 0 dEntry).request_id = 1 ∧
    selectIdx (loadFeedCache exDbTwo "R").timestamps t1300micro = some 1 ∧
    ((loadFeedCache exDbTwo "R").entries.getD 1 dEntry).timestamp = some t1300micro := by
  refine ⟨c2_selects_latest_not_after exDbTwo "R" t1230micro (by decide)
    ⟨0, by decide, 1727784000000000, by decide, by decide⟩,
    by decide, by decide, by decide, by decide⟩

/-! ## C7 — shape of the per-requester feed cache -/

/-- C7 (amended): (a) whenever the requester's stored timestamp strings order
consistently with their numeric forms (string-`≤` implies numeric `≤`), the
cache's parallel numeric array is sorted ascending; (b) an entry whose
timestamp failed to parse sits at `-inf` in the numeric array; (c) whenever
the matcher's search selects an entry with an unparseable timestamp, the
engagement is flagged `invalid_feed_timestamp` — never `matched`. -/
theorem c7_feed_cache_shape (db : DB) (did : String) :
    ((∀ r1 ∈ db.feed_requests, ∀ r2 ∈ db.feed_requests,
        r1.requester_did = did → r2.requester_did = did →
        optStrLt r2.timestamp r1.timestamp = false →
        TS.leb (tsNumOf r1.timestamp) (tsNumOf r2.timestamp) = true) →
      (loadFeedCache db did).timestamps.Pairwise (fun s t => TS.leb s t = true)) ∧
    (∀ k, k < (loadFeedCache db did).entries.length →
      ((loadFeedCache db did).entries.getD k dEntry).timestamp = none →
      (loadFeedCache db did).timestamps.getD k .ninf = .ninf) ∧
    (∀ ts_raw uri : String, ∀ e : Int, ∀ i : Nat,
      ts_raw ≠ "" → uri ≠ "" →
      parse_datetime (some ts_raw) = some e →
      selectIdx (loadFeedCache db did).timestamps e = some i →
      ((loadFeedCache db did).entries.getD i dEntry).timestamp = none →
      (matchEngagement db ts_raw did uri).status = POSITION_STATUS_INVALID_FEED_TS ∧
        (matchEngagement db ts_raw did uri).status ≠ POSITION_STATUS_MATCHED) := by
  refine ⟨?_, ?_, ?_⟩
  · intro hagree
    show ((sortByLt (fun r1 r2 => optStrLt r1.timestamp r2.timestamp)
      (db.feed_requests.filter (fun r => r.requester_did == did))).map
        (fun r => tsNumOf r.timestamp)).Pairwise (fun s t => TS.leb s t = true)
    rw [List.pairwise_map]
    have hsorted : (sortByLt (fun r1 r2 => optStrLt r1.timestamp r2.timestamp)
        (db.feed_requests.filter (fun r => r.requester_did == did))).Pairwise
          (fun r1 r2 => optStrLt r2.timestamp r1.timestamp = false) :=
      pairwise_sortByLt
        (fun a b hab => optStrLt_asymm _ _ hab)
        (fun a b hab => hab)
        (fun a b c hab hbc => by
          by_cases h : optStrLt c.timestamp a.timestamp = true
          · rcases optStrLt_trans_total c.timestamp a.timestamp b.timestamp h with
              hcb | hba
            · rw [hbc] at hcb
              exact absurd hcb (by simp)
            · rw [hab] at hba
              exact absurd hba (by simp)
          · simpa using h)
        _
    refine hsorted.imp_of_mem ?_
    intro r1 r2 h1 h2 hle
    rw [mem_sortByLt] at h1 h2
    rcases List.mem_filter.mp h1 with ⟨h1m, h1d⟩
    rcases List.mem_filter.mp h2 with ⟨h2m, h2d⟩
    exact hagree r1 h1m r2 h2m (by simpa using h1d) (by simpa using h2d) hle
  · intro k hk hnone
    have hlenr : k < (sortByLt (fun r1 r2 => optStrLt r1.timestamp r2.timestamp)
        (db.feed_requests.filter (fun r => r.requester_did == did))).length := by
      have : (loadFeedCache db did).entries.length =
          (sortByLt (fun r1 r2 => optStrLt r1.timestamp r2.timestamp)
            (db.feed_requests.filter (fun r => r.requester_did == did))).length := by
        simp [loadFeedCache]
      omega
    have hcorr : (loadFeedCache db did).timestamps.getD k .ninf =
        (match ((loadFeedCache db did).entries.getD k dEntry).timestamp with
         | some m => TS.fin m
         | none => TS.ninf) :=
      ts_entry_corr _ _ (fun r => rfl) k hlenr
    rw [hcorr, hnone]
  · intro ts_raw uri e i hts huri hparse hsel hent
    have hne : (loadFeedCache db did).timestamps.isEmpty = false := by
      cases hl : (loadFeedCache db did).timestamps with
      | nil =>
        rw [hl] at hsel
        exact absurd hsel (by intro h; exact Option.noConfusion h)
      | cons head tail => rfl
    have hstatus : (matchEngagement db ts_raw did uri).status =
        POSITION_STATUS_INVALID_FEED_TS := by
      unfold matchEngagement
      simp only [if_neg hts, hparse, if_neg huri, hne, Bool.false_eq_true,
        if_false, hsel, hent]
    exact ⟨hstatus, by rw [hstatus]; decide⟩

/-- C7 counterexample: the cache built for `exDbBad`'s requester has numeric
timestamp array `[12:00Z, -inf]` — the snapshot with the unparseable
timestamp is placed *after* the parseable one (raw-string order), so the
array is not sorted ascending. -/
theorem c7_counterexample_unsorted_array :
    (loadFeedCache exDbBad "R").timestamps = [.fin 1727784000000000, .ninf] ∧
    ¬ (loadFeedCache exDbBad "R").timestamps.Pairwise
        (fun s t => TS.leb s t = true) := by
  decide

theorem c7_witness :
    (loadFeedCache exDbTwo "R").timestamps.Pairwise (fun s t => TS.leb s t = true) ∧
    (matchEngagement exDbBad "2024-10-01T12:30:00Z" "R" "p1").status =
      POSITION_STATUS_INVALID_FEED_TS :=
  ⟨(c7_feed_cache_shape exDbTwo "R").1 (by decide),
   ((c7_feed_cache_shape exDbBad "R").2.2 "2024-10-01T12:30:00Z" "p1" t1230micro 1
     (by decide) (by decide) (by decide) (by decide) (by decide)).1⟩

/-! ## C8 — chunk-size invariance of the sweep -/

theorem chunkListAux_foldl {α β : Type _} (f : β → α → β) (c : Nat) (hc : 0 < c) :
    ∀ (fuel : Nat) (l : List α), l.length ≤ fuel → ∀ (acc : β),
    (chunkListAux fuel c l).foldl (fun a ch => ch.foldl f a) acc = l.foldl f acc
  | fuel, [], _, acc => by cases fuel <;> rfl
  | 0, x :: xs, h, acc => by simp at h
  | fuel + 1, x :: xs, h, acc => by
    show ((x :: xs).take c :: chunkListAux fuel c ((x :: xs).drop c)).foldl
      (fun a ch => ch.foldl f a) acc = _
    rw [List.foldl_cons]
    rw [chunkListAux_foldl f c hc fuel ((x :: xs).drop c)
      (by rw [List.length_drop]; simp at h ⊢; omega)]
    rw [← List.foldl_append, List.take_append_drop]

/-- For any positive chunk size the chunked sweep is the plain left fold over
the eligible rows. -/
theorem match_post_positions_chunk_free (db : DB) (since : Option Int) (c : Nat)
    (hc : 0 < c) :
    match_post_positions db since c =
      (eligibleRows db since).foldl matchStep (db, {}) := by
  unfold match_post_positions chunkList
  dsimp only
  rw [if_neg (by omega : ¬ c = 0)]
  exact chunkListAux_foldl matchStep c hc _ _ (Nat.le_refl _) _

/-- C8: for a fixed starting store and any two positive chunk sizes,
`match_post_positions` produces identical final stores and identical
statistics — chunk boundaries are invisible. -/
theorem c8_chunk_invariance (db : DB) (since : Option Int) (c1 c2 : Nat)
    (h1 : 0 < c1) (h2 : 0 < c2) :
    match_post_positions db since c1 = match_post_positions db since c2 := by
  rw [match_post_positions_chunk_free db since c1 h1,
    match_post_positions_chunk_free db since c2 h2]

theorem c8_witness :
    match_post_positions exDb3store none 1 = match_post_positions exDb3store none 2 :=
  c8_chunk_invariance exDb3store none 1 2 (by decide) (by decide)

/-! ## C9 — frame condition of the matching sweep -/

/-- Default row for out-of-range `getD` (never reached at in-range indices). -/
def dERow : EngagementRow :=
  { rowid := 0, timestamp := "", did_engagement := "", post_uri := "",
    post_author_handle := "", engagement_type := "", is_subscriber := 0,
    engagement_text := none, post_position := none,
    position_feed_request_id := none, position_age_seconds := none,
    position_status := none }

/-- The non-attribution columns of an engagement row — everything
`_update_position` never touches. -/
def nonAttr (r : EngagementRow) :
    Nat × String × String × String × String × String × Int × Option String :=
  (r.rowid, r.timestamp, r.did_engagement, r.post_uri, r.post_author_handle,
   r.engagement_type, r.is_subscriber, r.engagement_text)

/-- Sweep invariant: every table except `engagements` is untouched, and each
engagement row keeps its non-attribution columns; non-subscriber rows and
already-matched rows are bit-identical. -/
def sweepInv (db0 cur : DB) : Prop :=
  cur.feed_requests = db0.feed_requests ∧
  cur.feed_request_posts = db0.feed_request_posts ∧
  cur.posts = db0.posts ∧
  cur.next_post_row_id = db0.next_post_row_id ∧
  cur.next_engagement_rowid = db0.next_engagement_rowid ∧
  cur.engagements.length = db0.engagements.length ∧
  ∀ i, i < db0.engagements.length →
    nonAttr (cur.engagements.getD i dERow) = nonAttr (db0.engagements.getD i dERow) ∧
    ((db0.engagements.getD i dERow).is_subscriber ≠ 1 →
      cur.engagements.getD i dERow = db0.engagements.getD i dERow) ∧
    ((db0.engagements.getD i dERow).position_status = some POSITION_STATUS_MATCHED →
      cur.engagements.getD i dERow = db0.engagements.getD i dERow)

theorem sweepInv_refl (db0 : DB) : sweepInv db0 db0 :=
  ⟨rfl, rfl, rfl, rfl, rfl, rfl, fun _ _ => ⟨rfl, fun _ => rfl, fun _ => rfl⟩⟩

/-- An eligible row is a subscriber row that is not already matched. -/
theorem eligibleRow_props {since : Option Int} {r : EngagementRow}
    (h : eligibleRow since r = true) :
    r.is_subscriber = 1 ∧ r.position_status ≠ some POSITION_STATUS_MATCHED := by
  unfold eligibleRow at h
  simp only [Bool.and_eq_true] at h
  obtain ⟨⟨h1, h2⟩, -⟩ := h
  refine ⟨by simpa using h1, ?_⟩
  intro hc
  rw [hc] at h2
  simp at h2

/-- Provenance of a cursor tuple: it projects an eligible engagement row. -/
theorem mem_eligibleRows {db : DB} {since : Option Int}
    {t : Nat × String × String × String} (h : t ∈ eligibleRows db since) :
    ∃ rr ∈ db.engagements, eligibleRow since rr = true ∧ rr.rowid = t.1 := by
  unfold eligibleRows at h
  rcases List.mem_map.mp h with ⟨r, hr, rfl⟩
  rw [mem_sortByLt] at hr
  rcases List.mem_filter.mp hr with ⟨hmem, helig⟩
  exact ⟨r, hmem, helig, rfl⟩

theorem matchStep_preserves (db0 : DB) (since : Option Int)
    (hnodup : (db0.engagements.map (fun r => r.rowid)).Nodup)
    (t : Nat × String × String × String)
    (ht : ∃ rr ∈ db0.engagements, eligibleRow since rr = true ∧ rr.rowid = t.1)
    (acc : DB × PositionMatchStats) (hinv : sweepInv db0 acc.1) :
    sweepInv db0 (matchStep acc t).1 := by
  obtain ⟨hfr, hfrp, hposts, hnid, hnrid, hlen, hrows⟩ := hinv
  unfold matchStep
  dsimp only
  refine ⟨hfr, hfrp, hposts, hnid, hnrid, ?_, ?_⟩
  · rw [updatePosition, List.length_map]
    exact hlen
  · intro i hi
    have hilen : i < acc.1.engagements.length := by omega
    have hget : (updatePosition acc.1.engagements t.1
        (matchEngagement acc.1 t.2.1 t.2.2.1 t.2.2.2)).getD i dERow =
        (if (acc.1.engagements.getD i dERow).rowid == t.1 then
          updatePositionRow (acc.1.engagements.getD i dERow)
            (matchEngagement acc.1 t.2.1 t.2.2.1 t.2.2.2)
        else acc.1.engagements.getD i dERow) := by
      rw [updatePosition, getD_eq_getElem' _ i (by rw [List.length_map]; exact hilen),
        List.getElem_map, getD_eq_getElem' _ i hilen]
    rw [hget]
    rcases hrows i hi with ⟨hna, hsub, hmat⟩
    split
    case isTrue hb' =>
      have hb : (acc.1.engagements.getD i dERow).rowid = t.1 := by
        simpa using hb'
      -- the touched row is the eligible row `rr` itself
      rcases ht with ⟨rr, hrrmem, hrrelig, hrrid⟩
      have horigmem : db0.engagements.getD i dERow ∈ db0.engagements := by
        rw [getD_eq_getElem' _ i hi]
        exact List.getElem_mem _
      have h1 : (acc.1.engagements.getD i dERow).rowid =
          (db0.engagements.getD i dERow).rowid := by
        have := congrArg (fun p => p.1) hna
        simpa [nonAttr] using this
      have horigid : (db0.engagements.getD i dERow).rowid = t.1 := by
        rw [← h1]
        exact hb
      have hrr : rr = db0.engagements.getD i dERow :=
        List.inj_on_of_nodup_map hnodup hrrmem horigmem (by rw [hrrid, horigid])
      have helig : eligibleRow since (db0.engagements.getD i dERow) = true := by
        rw [← hrr]; exact hrrelig
      rcases eligibleRow_props helig with ⟨hsub1, hnm⟩
      refine ⟨?_, ?_, ?_⟩
      · show nonAttr (updatePositionRow _ _) = _
        rw [show ∀ (r : EngagementRow) o, nonAttr (updatePositionRow r o) = nonAttr r
          from fun r o => rfl]
        exact hna
      · intro hcontra
        exact absurd hsub1 hcontra
      · intro hcontra
        exact absurd hcontra hnm
    case isFalse hb' =>
      exact ⟨hna, hsub, hmat⟩

theorem sweep_fold_inv (db0 : DB) (since : Option Int)
    (hnodup : (db0.engagements.map (fun r => r.rowid)).Nodup) :
    ∀ (ts : List (Nat × String × String × String)),
    (∀ t ∈ ts, ∃ rr ∈ db0.engagements, eligibleRow since rr = true ∧ rr.rowid = t.1) →
    ∀ acc : DB × PositionMatchStats,
      sweepInv db0 acc.1 → sweepInv db0 ((ts.foldl matchStep acc).1)
  | [], _, acc, hinv => hinv
  | t :: ts', hts, acc, hinv => by
    rw [List.foldl_cons]
    exact sweep_fold_inv db0 since hnodup ts'
      (fun u hu => hts u (List.mem_cons_of_mem t hu)) _
      (matchStep_preserves db0 since hnodup t (hts t (List.mem_cons_self t ts')) acc hinv)

theorem mem_chunkListAux {α : Type _} :
    ∀ (fuel c : Nat) (l : List α) (ch : List α), ch ∈ chunkListAux fuel c l →
      ∀ t ∈ ch, t ∈ l
  | fuel, _, [], ch, hch => by
    cases fuel <;> cases hch
  | 0, _, _ :: _, ch, hch => by cases hch
  | fuel + 1, c, x :: xs, ch, hch => by
    rcases List.mem_cons.mp hch with rfl | hch'
    · exact fun t ht => List.mem_of_mem_take ht
    · exact fun t ht =>
        List.mem_of_mem_drop (mem_chunkListAux fuel c ((x :: xs).drop c) ch hch' t ht)

theorem sweep_chunks_inv (db0 : DB) (since : Option Int)
    (hnodup : (db0.engagements.map (fun r => r.rowid)).Nodup) :
    ∀ (chs : List (List (Nat × String × String × String))),
    (∀ ch ∈ chs, ∀ t ∈ ch,
      ∃ rr ∈ db0.engagements, eligibleRow since rr = true ∧ rr.rowid = t.1) →
    ∀ acc : DB × PositionMatchStats, sweepInv db0 acc.1 →
      sweepInv db0 ((chs.foldl (fun a ch => ch.foldl matchStep a) acc).1)
  | [], _, acc, hinv => hinv
  | ch :: chs', hchs, acc, hinv => by
    rw [List.foldl_cons]
    exact sweep_chunks_inv db0 since hnodup chs'
      (fun c hc => hchs c (List.mem_cons_of_mem ch hc)) _
      (sweep_fold_inv db0 since hnodup ch (hchs ch (List.mem_cons_self ch chs')) acc hinv)

/-- C9: the sweep mutates only the four attribution fields and only on
subscriber rows selected by the query — every other table, every
non-attribution column, every non-subscriber row and (when no `since` is
given) every already-matched row is left unchanged. -/
theorem c9_frame_condition (db : DB) (since : Option Int) (chunk : Nat)
    (hnodup : (db.engagements.map (fun r => r.rowid)).Nodup) :
    (match_post_positions db since chunk).1.feed_requests = db.feed_requests ∧
    (match_post_positions db since chunk).1.feed_request_posts = db.feed_request_posts ∧
    (match_post_positions db since chunk).1.posts = db.posts ∧
    (match_post_positions db since chunk).1.engagements.length = db.engagements.length ∧
    ∀ i, i < db.engagements.length →
      nonAttr ((match_post_positions db since chunk).1.engagements.getD i dERow) =
        nonAttr (db.engagements.getD i dERow) ∧
      ((db.engagements.getD i dERow).is_subscriber ≠ 1 →
        (match_post_positions db since chunk).1.engagements.getD i dERow =
          db.engagements.getD i dERow) ∧
      (since = none →
        (db.engagements.getD i dERow).position_status = some POSITION_STATUS_MATCHED →
        (match_post_positions db since chunk).1.engagements.getD i dERow =
          db.engagements.getD i dERow) := by
  have hinv : sweepInv db (match_post_positions db since chunk).1 := by
    unfold match_post_positions
    dsimp only
    refine sweep_chunks_inv db since hnodup _ ?_ (db, {}) (sweepInv_refl db)
    intro ch hch t ht
    unfold chunkList at hch
    split at hch
    · cases hch
    · exact mem_eligibleRows (mem_chunkListAux _ _ _ ch hch t ht)
  obtain ⟨hfr, hfrp, hposts, -, -, hlen, hrows⟩ := hinv
  refine ⟨hfr, hfrp, hposts, hlen, ?_⟩
  intro i hi
  rcases hrows i hi with ⟨hna, hsub, hmat⟩
  exact ⟨hna, hsub, fun _ => hmat⟩

theorem c9_witness :
    (match_post_positions exDb3store none 500).1.feed_requests =
      exDb3store.feed_requests ∧
    (match_post_positions exDb3store none 500).1.engagements.length =
      exDb3store.engagements.length ∧
    nonAttr ((match_post_positions exDb3store none 500).1.engagements.getD 0 dERow) =
      nonAttr (exDb3store.engagements.getD 0 dERow) := by
  have h := c9_frame_condition exDb3store none 500 (by decide)
  exact ⟨h.1, h.2.2.2.1, (h.2.2.2.2 0 (by decide)).1⟩
